import Mathlib

/-!
Verification development for a slice of a CAD toolchain: the placement
net-cost / bounding-box engine (`uniform_move_generator.h`), the manual-move
diagnostic panel (`manual_moves.cpp`), and the block-memory elaborator
(`BlockMemories.cc`).  Real-valued (`double`) arithmetic from the source is
modelled over `ℚ`; machine integers over `ℤ`/`ℕ`; per-net arrays as functions
`ℕ → _`; per-layer vectors as `List ℤ`.
-/

namespace VtrPlace

/-- `t_bb`: a 3-D (cube) bounding box; only the four planar fields are used by
the code in this slice. -/
structure TBB where
  xmin : Int
  xmax : Int
  ymin : Int
  ymax : Int
deriving DecidableEq, Repr

/-- `t_2D_bb`: a per-layer 2-D bounding box (with its layer index). -/
structure T2DBB where
  layerNum : Int
  xmin : Int
  xmax : Int
  ymin : Int
  ymax : Int
deriving DecidableEq, Repr

/-- A default-initialised 2-D box (`t_2D_bb()` value-initialises to zero). -/
def default2D : T2DBB := ⟨0, 0, 0, 0, 0⟩

/-- `t_physical_tile_loc`: the (x, y, layer) position of a physical pin. -/
structure PinLoc where
  x : Int
  y : Int
  layer : Nat
deriving DecidableEq, Repr

/-- The device grid dimensions (`device_ctx.grid`). -/
structure Grid where
  width : Int
  height : Int
  numLayers : Nat
deriving DecidableEq, Repr

/-- A net's pins as currently placed: the driver pin location followed by the
sink pin locations (block location plus pin offset, before clamping). -/
structure NetPins where
  driver : PinLoc
  sinks : List PinLoc
deriving DecidableEq, Repr

/-- The per-net freshness flag `bb_updated_before`
(`NOT_UPDATED_YET` / `UPDATED_ONCE` / `GOT_FROM_SCRATCH`). -/
inductive BBFlag where
  | notUpdatedYet
  | updatedOnce
  | gotFromScratch
deriving DecidableEq, Repr

/-- Numeric rank of a freshness flag, for the forward-only ordering
NOT_UPDATED_YET → UPDATED_ONCE → GOT_FROM_SCRATCH. -/
def BBFlag.rank : BBFlag → Nat
  | .notUpdatedYet => 0
  | .updatedOnce => 1
  | .gotFromScratch => 2

/-- `max(min(x, grid.width() - 2), 1)`: clamp an x coordinate into the
channel range. -/
def clampX (g : Grid) (x : Int) : Int := max (min x (g.width - 2)) 1

/-- `max(min(y, grid.height() - 2), 1)`: clamp a y coordinate into the
channel range. -/
def clampY (g : Grid) (y : Int) : Int := max (min y (g.height - 2)) 1

/-- The 50-entry `cross_count` table of expected crossing counts, indexed by
fanout − 1. -/
def cross_count : List ℚ :=
  [1.0, 1.0, 1.0, 1.0828,
   1.1536, 1.2206, 1.2823, 1.3385, 1.3991, 1.4493, 1.4974, 1.5455, 1.5937,
   1.6418, 1.6899, 1.7304, 1.7709, 1.8114, 1.8519, 1.8924, 1.9288, 1.9652,
   2.0015, 2.0379, 2.0743, 2.1061, 2.1379, 2.1698, 2.2016, 2.2334, 2.2646,
   2.2958, 2.3271, 2.3583, 2.3895, 2.4187, 2.4479, 2.4772, 2.5064, 2.5356,
   2.5610, 2.5864, 2.6117, 2.6371, 2.6625, 2.6887, 2.7148, 2.7410, 2.7671,
   2.7933]

/-- `wirelength_crossing_count(size_t fanout)`: table lookup for fanout ≤ 50,
linear extrapolation above. -/
def wirelength_crossing_count (fanout : Nat) : ℚ :=
  if 50 < fanout then
    2.7933 + 0.02616 * ((fanout - 50 : Nat) : ℚ)
  else
    cross_count.getD (fanout - 1) 0

/-- Increment (or decrement) entry `i` of a per-layer counter vector. -/
def bumpIdx (v : List Int) (i : Nat) (d : Int) : List Int :=
  v.set i (v.getD i 0 + d)

/-- Accumulator of the running min/max coordinates in
`get_non_updatable_bb`'s pin scan. -/
structure MinMaxAcc where
  xmin : Int
  xmax : Int
  ymin : Int
  ymax : Int
deriving DecidableEq, Repr

/-- One sink-pin step of `get_non_updatable_bb`'s scan
(`if (x < xmin) ... else if (x > xmax) ...`, same for y). -/
def nonUpdatableStep (acc : MinMaxAcc) (p : PinLoc) : MinMaxAcc :=
  let a1 :=
    if p.x < acc.xmin then { acc with xmin := p.x }
    else if p.x > acc.xmax then { acc with xmax := p.x }
    else acc
  if p.y < a1.ymin then { a1 with ymin := p.y }
  else if p.y > a1.ymax then { a1 with ymax := p.y }
  else a1

/-- Per-layer sink-pin counts of a net (`num_sink_pin_layer`), accumulated by
incrementing the count of every sink pin's layer over a zeroed vector. -/
def sinkLayerCounts (numLayers : Nat) (net : NetPins) : List Int :=
  net.sinks.foldl (fun v p => bumpIdx v p.layer 1) (List.replicate numLayers 0)

/-- `get_non_updatable_bb`: bounding box of a net from all its pins, starting
from the driver pin, clamped into the channel range only at the very end.
Also zeroes and recounts the per-layer sink counts. -/
def get_non_updatable_bb (g : Grid) (net : NetPins) : TBB × List Int :=
  let acc0 : MinMaxAcc := ⟨net.driver.x, net.driver.x, net.driver.y, net.driver.y⟩
  let acc := net.sinks.foldl nonUpdatableStep acc0
  (⟨clampX g acc.xmin, clampX g acc.xmax, clampY g acc.ymin, clampY g acc.ymax⟩,
   sinkLayerCounts g.numLayers net)

/-- Accumulator of `get_bb_from_scratch`'s scan: coordinates plus
edge-occupancy counts. -/
structure ScratchAcc where
  xmin : Int
  xmax : Int
  ymin : Int
  ymax : Int
  xminEdge : Int
  xmaxEdge : Int
  yminEdge : Int
  ymaxEdge : Int
deriving DecidableEq, Repr

/-- The x half of one sink-pin step of `get_bb_from_scratch`'s scan: an `x`
equal to both `xmin` and `xmax` bumps both edge counts (`don't use else`). -/
def scratchStepX (x : Int) (acc : ScratchAcc) : ScratchAcc :=
  let a1 := if x = acc.xmin then { acc with xminEdge := acc.xminEdge + 1 } else acc
  if x = a1.xmax then { a1 with xmaxEdge := a1.xmaxEdge + 1 }
  else if x < a1.xmin then { a1 with xmin := x, xminEdge := 1 }
  else if x > a1.xmax then { a1 with xmax := x, xmaxEdge := 1 }
  else a1

/-- The y half of one sink-pin step of `get_bb_from_scratch`'s scan. -/
def scratchStepY (y : Int) (acc : ScratchAcc) : ScratchAcc :=
  let a1 := if y = acc.ymin then { acc with yminEdge := acc.yminEdge + 1 } else acc
  if y = a1.ymax then { a1 with ymaxEdge := a1.ymaxEdge + 1 }
  else if y < a1.ymin then { a1 with ymin := y, yminEdge := 1 }
  else if y > a1.ymax then { a1 with ymax := y, ymaxEdge := 1 }
  else a1

/-- One sink-pin step of `get_bb_from_scratch`'s scan: the pin coordinate is
clamped first, then the x and y sections run in order. -/
def scratchStep (g : Grid) (acc : ScratchAcc) (p : PinLoc) : ScratchAcc :=
  scratchStepY (clampY g p.y) (scratchStepX (clampX g p.x) acc)

/-- `get_bb_from_scratch`: coordinates, edge counts and per-layer sink counts
of a net recomputed from only the pin locations (clamped as they are read). -/
def get_bb_from_scratch (g : Grid) (net : NetPins) : TBB × TBB × List Int :=
  let x := clampX g net.driver.x
  let y := clampY g net.driver.y
  let acc := net.sinks.foldl (scratchStep g) ⟨x, x, y, y, 1, 1, 1, 1⟩
  (⟨acc.xmin, acc.xmax, acc.ymin, acc.ymax⟩,
   ⟨acc.xminEdge, acc.xmaxEdge, acc.yminEdge, acc.ymaxEdge⟩,
   sinkLayerCounts g.numLayers net)

/-- The trial-side bounding-box record of one net: coordinates
(`ts_bb_coord_new`), edge counts (`ts_bb_edge_new`) and per-layer sink counts
(`ts_layer_sink_pin_count`). -/
structure BBData where
  coords : TBB
  edges : TBB
  sinks : List Int
deriving DecidableEq, Repr

/-- Result of a forced full recomputation inside `update_bb`
(`get_bb_from_scratch` plus the GOT_FROM_SCRATCH flag). -/
def scratchData (g : Grid) (net : NetPins) : BBData × BBFlag :=
  let r := get_bb_from_scratch g net
  (⟨r.1, r.2.1, r.2.2⟩, .gotFromScratch)

/-- The x-direction part of `update_bb`: given the current box and the
clamped old/new pin x coordinates, either the new
(xmin, xmax, xminEdge, xmaxEdge) quadruple, or `none` when the moved pin was
the sole occupant of the edge it leaves and a full recomputation is forced. -/
def updXPhase (curr : BBData) (pox pnx : Int) : Option (Int × Int × Int × Int) :=
  if pnx < pox then
    let xmaxPart : Option (Int × Int) :=
      if pox = curr.coords.xmax then
        if curr.edges.xmax = 1 then none
        else some (curr.coords.xmax, curr.edges.xmax - 1)
      else some (curr.coords.xmax, curr.edges.xmax)
    match xmaxPart with
    | none => none
    | some (cxmax, exmax) =>
      if pnx < curr.coords.xmin then some (pnx, cxmax, 1, exmax)
      else if pnx = curr.coords.xmin then some (pnx, cxmax, curr.edges.xmin + 1, exmax)
      else some (curr.coords.xmin, cxmax, curr.edges.xmin, exmax)
  else if pnx > pox then
    let xminPart : Option (Int × Int) :=
      if pox = curr.coords.xmin then
        if curr.edges.xmin = 1 then none
        else some (curr.coords.xmin, curr.edges.xmin - 1)
      else some (curr.coords.xmin, curr.edges.xmin)
    match xminPart with
    | none => none
    | some (cxmin, exmin) =>
      if pnx > curr.coords.xmax then some (cxmin, pnx, exmin, 1)
      else if pnx = curr.coords.xmax then some (cxmin, pnx, exmin, curr.edges.xmax + 1)
      else some (cxmin, curr.coords.xmax, exmin, curr.edges.xmax)
  else
    some (curr.coords.xmin, curr.coords.xmax, curr.edges.xmin, curr.edges.xmax)

/-- The y-direction part of `update_bb`, symmetric to `updXPhase`. -/
def updYPhase (curr : BBData) (poy pny : Int) : Option (Int × Int × Int × Int) :=
  if pny < poy then
    let ymaxPart : Option (Int × Int) :=
      if poy = curr.coords.ymax then
        if curr.edges.ymax = 1 then none
        else some (curr.coords.ymax, curr.edges.ymax - 1)
      else some (curr.coords.ymax, curr.edges.ymax)
    match ymaxPart with
    | none => none
    | some (cymax, eymax) =>
      if pny < curr.coords.ymin then some (pny, cymax, 1, eymax)
      else if pny = curr.coords.ymin then some (pny, cymax, curr.edges.ymin + 1, eymax)
      else some (curr.coords.ymin, cymax, curr.edges.ymin, eymax)
  else if pny > poy then
    let yminPart : Option (Int × Int) :=
      if poy = curr.coords.ymin then
        if curr.edges.ymin = 1 then none
        else some (curr.coords.ymin, curr.edges.ymin - 1)
      else some (curr.coords.ymin, curr.edges.ymin)
    match yminPart with
    | none => none
    | some (cymin, eymin) =>
      if pny > curr.coords.ymax then some (cymin, pny, eymin, 1)
      else if pny = curr.coords.ymax then some (cymin, pny, eymin, curr.edges.ymax + 1)
      else some (cymin, curr.coords.ymax, eymin, curr.edges.ymax)
  else
    some (curr.coords.ymin, curr.coords.ymax, curr.edges.ymin, curr.edges.ymax)

/-- `update_bb`: incremental cube bounding-box update for one moved pin.
Flag GOT_FROM_SCRATCH returns immediately without touching anything; flag
NOT_UPDATED_YET bases the update on the committed (last-accepted) values,
otherwise on the trial's own running values.  The sole-occupant cases fall
back to `get_bb_from_scratch`.  With more than one device layer the sink
counts are copied from the current values, and a moved non-driver pin
changing layer decrements the old and increments the new layer's count. -/
def update_bb (g : Grid) (net : NetPins) (committed trial : BBData)
    (flag : BBFlag) (pinOld pinNew : PinLoc) (srcPin : Bool) : BBData × BBFlag :=
  let pnx := clampX g pinNew.x
  let pny := clampY g pinNew.y
  let pox := clampX g pinOld.x
  let poy := clampY g pinOld.y
  if flag = .gotFromScratch then (trial, .gotFromScratch)
  else
    let curr := if flag = .notUpdatedYet then committed else trial
    match updXPhase curr pox pnx with
    | none => scratchData g net
    | some (cxmin, cxmax, exmin, exmax) =>
      match updYPhase curr poy pny with
      | none => scratchData g net
      | some (cymin, cymax, eymin, eymax) =>
        let sinksNew :=
          if 1 < g.numLayers then
            if !srcPin && pinOld.layer ≠ pinNew.layer then
              bumpIdx (bumpIdx curr.sinks pinOld.layer (-1)) pinNew.layer 1
            else curr.sinks
          else trial.sinks
        (⟨⟨cxmin, cxmax, cymin, cymax⟩, ⟨exmin, exmax, eymin, eymax⟩, sinksNew⟩,
         .updatedOnce)

/-- `get_layer_bb_from_scratch`: per-layer boxes, edge counts and sink counts
recomputed from only the pin locations.  Every layer's box starts at the
clamped driver position; each sink updates only its own layer's box. -/
def get_layer_bb_from_scratch (g : Grid) (net : NetPins) :
    List T2DBB × List T2DBB × List Int :=
  let x := clampX g net.driver.x
  let y := clampY g net.driver.y
  let init : ScratchAcc := ⟨x, x, y, y, 1, 1, 1, 1⟩
  let accs := net.sinks.foldl
    (fun accs p => accs.set p.layer (scratchStep g (accs.getD p.layer init) p))
    (List.replicate g.numLayers init)
  ((List.range g.numLayers).map (fun l =>
      let a := accs.getD l init
      (⟨(l : Int), a.xminEdge, a.xmaxEdge, a.yminEdge, a.ymaxEdge⟩ : T2DBB)),
   (List.range g.numLayers).map (fun l =>
      let a := accs.getD l init
      (⟨(l : Int), a.xmin, a.xmax, a.ymin, a.ymax⟩ : T2DBB)),
   sinkLayerCounts g.numLayers net)

/-- `update_bb_edge`: removing one block from an edge; a sole occupant forces
a full recomputation (`none`), otherwise the occupancy count drops by one and
the edge coordinate is kept. -/
def update_bb_edge (oldNumBlockOnEdge oldEdgeCoord : Int) : Option (Int × Int) :=
  if oldNumBlockOnEdge = 1 then none
  else some (oldNumBlockOnEdge - 1, oldEdgeCoord)

/-- Apply `f` to the box at index `i` of a per-layer box vector. -/
def modBox (l : List T2DBB) (i : Nat) (f : T2DBB → T2DBB) : List T2DBB :=
  l.set i (f (l.getD i default2D))

/-- `add_block_to_bb`: fold a newly arriving pin into one layer's box,
comparing against the old box and writing into the new one. -/
def add_block_to_bb (xNew yNew : Int) (eOld cOld eNew cNew : T2DBB) :
    T2DBB × T2DBB :=
  let r1 :=
    if xNew > cOld.xmax then ({ eNew with xmax := 1 }, { cNew with xmax := xNew })
    else if xNew = cOld.xmax then ({ eNew with xmax := eOld.xmax + 1 }, cNew)
    else (eNew, cNew)
  let r2 :=
    if xNew < cOld.xmin then ({ r1.1 with xmin := 1 }, { r1.2 with xmin := xNew })
    else if xNew = cOld.xmin then ({ r1.1 with xmin := eOld.xmin + 1 }, r1.2)
    else r1
  let r3 :=
    if yNew > cOld.ymax then ({ r2.1 with ymax := 1 }, { r2.2 with ymax := yNew })
    else if yNew = cOld.ymax then ({ r2.1 with ymax := eOld.ymax + 1 }, r2.2)
    else r2
  if yNew < cOld.ymin then ({ r3.1 with ymin := 1 }, { r3.2 with ymin := yNew })
  else if yNew = cOld.ymin then ({ r3.1 with ymin := eOld.ymin + 1 }, r3.2)
  else r3

/-- `update_bb_same_layer`: a pin moving within layer `L`; conditions read
the current box, writes go to the new vectors (initially copies of the
current ones); `none` signals a forced full recomputation. -/
def update_bb_same_layer (currE currC : List T2DBB) (L : Nat)
    (xOld xNew yOld yNew : Int) (e c : List T2DBB) :
    Option (List T2DBB × List T2DBB) :=
  let cc := currC.getD L default2D
  let ce := currE.getD L default2D
  let xStep : Option (List T2DBB × List T2DBB) :=
    if xNew < xOld then
      let afterMax : Option (List T2DBB × List T2DBB) :=
        if xOld = cc.xmax then
          match update_bb_edge ce.xmax cc.xmax with
          | none => none
          | some (n, co) =>
            some (modBox e L (fun b => { b with xmax := n }),
                  modBox c L (fun b => { b with xmax := co }))
        else some (e, c)
      match afterMax with
      | none => none
      | some (e1, c1) =>
        if xNew < cc.xmin then
          some (modBox e1 L (fun b => { b with xmin := 1 }),
                modBox c1 L (fun b => { b with xmin := xNew }))
        else if xNew = cc.xmin then
          some (modBox e1 L (fun b => { b with xmin := ce.xmin + 1 }),
                modBox c1 L (fun b => { b with xmin := cc.xmin }))
        else some (e1, c1)
    else if xNew > xOld then
      let afterMin : Option (List T2DBB × List T2DBB) :=
        if xOld = cc.xmin then
          match update_bb_edge ce.xmin cc.xmin with
          | none => none
          | some (n, co) =>
            some (modBox e L (fun b => { b with xmin := n }),
                  modBox c L (fun b => { b with xmin := co }))
        else some (e, c)
      match afterMin with
      | none => none
      | some (e1, c1) =>
        if xNew > cc.xmax then
          some (modBox e1 L (fun b => { b with xmax := 1 }),
                modBox c1 L (fun b => { b with xmax := xNew }))
        else if xNew = cc.xmax then
          some (modBox e1 L (fun b => { b with xmax := ce.xmax + 1 }),
                modBox c1 L (fun b => { b with xmax := cc.xmax }))
        else some (e1, c1)
    else some (e, c)
  match xStep with
  | none => none
  | some (e2, c2) =>
    if yNew < yOld then
      let afterMax : Option (List T2DBB × List T2DBB) :=
        if yOld = cc.ymax then
          match update_bb_edge ce.ymax cc.ymax with
          | none => none
          | some (n, co) =>
            some (modBox e2 L (fun b => { b with ymax := n }),
                  modBox c2 L (fun b => { b with ymax := co }))
        else some (e2, c2)
      match afterMax with
      | none => none
      | some (e3, c3) =>
        if yNew < cc.ymin then
          some (modBox e3 L (fun b => { b with ymin := 1 }),
                modBox c3 L (fun b => { b with ymin := yNew }))
        else if yNew = cc.ymin then
          some (modBox e3 L (fun b => { b with ymin := ce.ymin + 1 }),
                modBox c3 L (fun b => { b with ymin := cc.ymin }))
        else some (e3, c3)
    else if yNew > yOld then
      let afterMin : Option (List T2DBB × List T2DBB) :=
        if yOld = cc.ymin then
          match update_bb_edge ce.ymin cc.ymin with
          | none => none
          | some (n, co) =>
            some (modBox e2 L (fun b => { b with ymin := n }),
                  modBox c2 L (fun b => { b with ymin := co }))
        else some (e2, c2)
      match afterMin with
      | none => none
      | some (e3, c3) =>
        if yNew > cc.ymax then
          some (modBox e3 L (fun b => { b with ymax := 1 }),
                modBox c3 L (fun b => { b with ymax := yNew }))
        else if yNew = cc.ymax then
          some (modBox e3 L (fun b => { b with ymax := ce.ymax + 1 }),
                modBox c3 L (fun b => { b with ymax := cc.ymax }))
        else some (e3, c3)
    else some (e2, c2)

/-- `update_bb_layer_changed`: a pin hopping from layer `oldL` to `newL`;
its contribution is removed from the old layer's box edges (falling back to
a full recomputation for a sole occupant) and the pin is folded into the new
layer's box via `add_block_to_bb`. -/
def update_bb_layer_changed (currE currC : List T2DBB) (oldL newL : Nat)
    (xOld yOld pnx pny : Int) (e c : List T2DBB) :
    Option (List T2DBB × List T2DBB) :=
  let cco := currC.getD oldL default2D
  let ceo := currE.getD oldL default2D
  let xStep : Option (List T2DBB × List T2DBB) :=
    if xOld = cco.xmax then
      match update_bb_edge ceo.xmax cco.xmax with
      | none => none
      | some (n, co) =>
        some (modBox e oldL (fun b => { b with xmax := n }),
              modBox c oldL (fun b => { b with xmax := co }))
    else if xOld = cco.xmin then
      match update_bb_edge ceo.xmin cco.xmin with
      | none => none
      | some (n, co) =>
        some (modBox e oldL (fun b => { b with xmin := n }),
              modBox c oldL (fun b => { b with xmin := co }))
    else some (e, c)
  match xStep with
  | none => none
  | some (e1, c1) =>
    let yStep : Option (List T2DBB × List T2DBB) :=
      if yOld = cco.ymax then
        match update_bb_edge ceo.ymax cco.ymax with
        | none => none
        | some (n, co) =>
          some (modBox e1 oldL (fun b => { b with ymax := n }),
                modBox c1 oldL (fun b => { b with ymax := co }))
      else if yOld = cco.ymin then
        match update_bb_edge ceo.ymin cco.ymin with
        | none => none
        | some (n, co) =>
          some (modBox e1 oldL (fun b => { b with ymin := n }),
                modBox c1 oldL (fun b => { b with ymin := co }))
      else some (e1, c1)
    match yStep with
    | none => none
    | some (e2, c2) =>
      let r := add_block_to_bb pnx pny (currE.getD newL default2D)
        (currC.getD newL default2D) (e2.getD newL default2D) (c2.getD newL default2D)
      some (e2.set newL r.1, c2.set newL r.2)

/-- `update_bb_pin_sink_count`: start from a copy of the current per-layer
sink counts; a moved pin that is not the net's output (driver) pin moves its
own count from the old layer to the new one (`-= 1` then `+= 1`). -/
def update_bb_pin_sink_count (numLayers : Nat) (oldLayer newLayer : Nat)
    (curr : List Int) (isOutputPin : Bool) : List Int :=
  let base := (List.range numLayers).map (fun l => curr.getD l 0)
  if !isOutputPin then bumpIdx (bumpIdx base oldLayer (-1)) newLayer 1
  else base

/-- The trial-side per-layer bounding-box record of one net
(`layer_ts_bb_edge_new`, `layer_ts_bb_coord_new`, `ts_layer_sink_pin_count`). -/
structure LayerBBData where
  edges : List T2DBB
  coords : List T2DBB
  sinks : List Int
deriving DecidableEq, Repr

/-- Result of a forced full recomputation inside `update_layer_bb`. -/
def layerScratchData (g : Grid) (net : NetPins) : LayerBBData × BBFlag :=
  let r := get_layer_bb_from_scratch g net
  (⟨r.1, r.2.1, r.2.2⟩, .gotFromScratch)

/-- `update_layer_bb`: incremental per-layer bounding-box update for one
moved pin, with the same freshness-flag protocol as `update_bb`; the new
vectors start as copies of the current ones, sink counts are updated first,
then the same-layer or layer-changed path runs, either of which may force a
full recomputation. -/
def update_layer_bb (g : Grid) (net : NetPins) (committed trial : LayerBBData)
    (flag : BBFlag) (pinOld pinNew : PinLoc) (isOutputPin : Bool) :
    LayerBBData × BBFlag :=
  let pnx := clampX g pinNew.x
  let pny := clampY g pinNew.y
  let pox := clampX g pinOld.x
  let poy := clampY g pinOld.y
  if flag = .gotFromScratch then (trial, .gotFromScratch)
  else
    let curr := if flag = .notUpdatedYet then committed else trial
    let sinksNew := update_bb_pin_sink_count g.numLayers pinOld.layer
      pinNew.layer curr.sinks isOutputPin
    let res :=
      if pinOld.layer ≠ pinNew.layer then
        update_bb_layer_changed curr.edges curr.coords pinOld.layer pinNew.layer
          pox poy pnx pny curr.edges curr.coords
      else
        update_bb_same_layer curr.edges curr.coords pinOld.layer
          pox pnx poy pny curr.edges curr.coords
    match res with
    | none => layerScratchData g net
    | some (e, c) => (⟨e, c, sinksNew⟩, .updatedOnce)

/-- `get_net_cost`: wiring cost of one net from its cube bounding box.  The
channel cost factor tables `chanx_place_cost_fac` / `chany_place_cost_fac`
are passed as functions; `numNetPins` is `clb_nlist.net_pins(net_id).size()`. -/
def get_net_cost (numNetPins : Nat) (chanxFac chanyFac : Int → Int → ℚ)
    (bb : TBB) : ℚ :=
  let crossing := wirelength_crossing_count numNetPins
  let ncost := ((bb.xmax - bb.xmin + 1 : Int) : ℚ) * crossing
      * chanxFac bb.ymax (bb.ymin - 1)
  ncost + ((bb.ymax - bb.ymin + 1 : Int) : ℚ) * crossing
      * chanyFac bb.xmax (bb.xmin - 1)

/-- One layer's contribution inside `get_net_layer_cost`'s loop body (the two
`ncost +=` statements for a layer that is not skipped). -/
def layerCostTerm (chanxFac chanyFac : Int → Int → ℚ) (bb : List T2DBB)
    (sinkCount : List Int) (layerNum : Nat) : ℚ :=
  let crossing := wirelength_crossing_count (sinkCount.getD layerNum 0 + 1).toNat
  let b := bb.getD layerNum default2D
  ((b.xmax - b.xmin + 1 : Int) : ℚ) * crossing * chanxFac b.ymax (b.ymin - 1)
    + ((b.ymax - b.ymin + 1 : Int) : ℚ) * crossing * chanyFac b.xmax (b.xmin - 1)

/-- `get_net_layer_cost`: per-layer wiring cost, accumulated over all layers,
skipping (`continue`) layers whose sink-pin count is zero. -/
def get_net_layer_cost (chanxFac chanyFac : Int → Int → ℚ) (numLayers : Nat)
    (bb : List T2DBB) (sinkCount : List Int) : ℚ :=
  (List.range numLayers).foldl
    (fun ncost layerNum =>
      if sinkCount.getD layerNum 0 = 0 then ncost
      else ncost + layerCostTerm chanxFac chanyFac bb sinkCount layerNum)
    0

/-- The clamp invariant: all four coordinates of a cube box lie in
`[1, width − 2]` × `[1, height − 2]`. -/
def coordInRange (g : Grid) (bb : TBB) : Prop :=
  1 ≤ bb.xmin ∧ bb.xmin ≤ g.width - 2 ∧ 1 ≤ bb.xmax ∧ bb.xmax ≤ g.width - 2 ∧
  1 ≤ bb.ymin ∧ bb.ymin ≤ g.height - 2 ∧ 1 ≤ bb.ymax ∧ bb.ymax ≤ g.height - 2

instance (g : Grid) (bb : TBB) : Decidable (coordInRange g bb) := by
  unfold coordInRange; infer_instance

/-- The engine's per-net committed and trial state: committed cost cache
`net_cost`, proposed-cost sentinel `proposed_net_cost`, freshness flags
`bb_updated_before`, committed boxes (`place_move_ctx`), trial scratch boxes
(`ts_*`) and the affected-net list `ts_nets_to_update`. -/
structure PlacerState where
  netCost : Nat → ℚ
  proposedNetCost : Nat → ℚ
  bbUpdatedBefore : Nat → BBFlag
  bbCoords : Nat → TBB
  bbNumOnEdges : Nat → TBB
  numSinkPinLayer : Nat → List Int
  tsBBCoordNew : Nat → TBB
  tsBBEdgeNew : Nat → TBB
  tsLayerSinkPinCount : Nat → List Int
  tsNetsToUpdate : List Nat

/-- `record_affected_net`: record a net the first time one of its pins is
touched this trial, idempotently via the proposed-cost sentinel (a negative
value means not yet recorded; recording stamps it with 1). -/
def record_affected_net (net : Nat) (s : PlacerState) : PlacerState :=
  if s.proposedNetCost net < 0 then
    { s with
      tsNetsToUpdate := s.tsNetsToUpdate ++ [net],
      proposedNetCost := fun m => if m = net then 1 else s.proposedNetCost m }
  else s

/-- `update_net_bb`: dispatch one moved pin's bounding-box update.  Nets
below the SMALL_NET sink threshold get a brute-force `get_non_updatable_bb`
(only on the first touch, while the flag is still NOT_UPDATED_YET, and
without advancing the flag); larger nets get the incremental `update_bb`. -/
def update_net_bb (smallNet : Nat) (g : Grid) (net : Nat) (pins : NetPins)
    (pinOld pinNew : PinLoc) (srcPin : Bool) (s : PlacerState) : PlacerState :=
  if pins.sinks.length < smallNet then
    if s.bbUpdatedBefore net = .notUpdatedYet then
      let r := get_non_updatable_bb g pins
      { s with
        tsBBCoordNew := fun m => if m = net then r.1 else s.tsBBCoordNew m,
        tsLayerSinkPinCount := fun m => if m = net then r.2 else s.tsLayerSinkPinCount m }
    else s
  else
    let r := update_bb g pins
      ⟨s.bbCoords net, s.bbNumOnEdges net, s.numSinkPinLayer net⟩
      ⟨s.tsBBCoordNew net, s.tsBBEdgeNew net, s.tsLayerSinkPinCount net⟩
      (s.bbUpdatedBefore net) pinOld pinNew srcPin
    { s with
      tsBBCoordNew := fun m => if m = net then r.1.coords else s.tsBBCoordNew m,
      tsBBEdgeNew := fun m => if m = net then r.1.edges else s.tsBBEdgeNew m,
      tsLayerSinkPinCount := fun m => if m = net then r.1.sinks else s.tsLayerSinkPinCount m,
      bbUpdatedBefore := fun m => if m = net then r.2 else s.bbUpdatedBefore m }

/-- The state-mutating steps a trial performs before commit or rollback:
recording an affected net, updating a net's bounding box for a moved pin,
and writing a net's proposed cost (the once-per-net cost loop at the end of
`find_affected_nets_and_update_costs`). -/
inductive TrialOp where
  | record (net : Nat)
  | updateNetBB (g : Grid) (net : Nat) (pins : NetPins) (pinOld pinNew : PinLoc)
      (srcPin : Bool)
  | setProposedCost (net : Nat) (cost : ℚ)

/-- Apply one trial step to the engine state. -/
def applyTrialOp (smallNet : Nat) (s : PlacerState) : TrialOp → PlacerState
  | .record net => record_affected_net net s
  | .updateNetBB g net pins po pn sp => update_net_bb smallNet g net pins po pn sp s
  | .setProposedCost net cost =>
    { s with proposedNetCost := fun m => if m = net then cost else s.proposedNetCost m }

/-- Apply a whole trial's worth of steps in order. -/
def applyTrialOps (smallNet : Nat) (ops : List TrialOp) (s : PlacerState) : PlacerState :=
  ops.foldl (applyTrialOp smallNet) s

/-- The body of `reset_move_nets`' loop for one affected net: proposed cost
back to the −1 sentinel and freshness flag back to NOT_UPDATED_YET. -/
def resetStep (st : PlacerState) (net : Nat) : PlacerState :=
  { st with
    proposedNetCost := fun m => if m = net then -1 else st.proposedNetCost m,
    bbUpdatedBefore := fun m => if m = net then .notUpdatedYet else st.bbUpdatedBefore m }

/-- `reset_move_nets`: rollback of a trial, iterating `resetStep` over the
affected-net list. -/
def reset_move_nets (s : PlacerState) : PlacerState :=
  s.tsNetsToUpdate.foldl resetStep s

/-- The body of `update_move_nets`' loop for one affected net: fold the trial
box, per-layer sink counts, (for large nets) edge counts and the proposed
cost into the committed state, then reset sentinel and flag. -/
def commitStep (smallNet : Nat) (numLayers : Nat) (netSinks : Nat → Nat)
    (st : PlacerState) (net : Nat) : PlacerState :=
  { st with
    bbCoords := fun m => if m = net then st.tsBBCoordNew net else st.bbCoords m,
    numSinkPinLayer := fun m =>
      if m = net then (List.range numLayers).map
        (fun l => (st.tsLayerSinkPinCount net).getD l 0)
      else st.numSinkPinLayer m,
    bbNumOnEdges := fun m =>
      if m = net ∧ smallNet ≤ netSinks net then st.tsBBEdgeNew net
      else st.bbNumOnEdges m,
    netCost := fun m => if m = net then st.proposedNetCost net else st.netCost m,
    proposedNetCost := fun m => if m = net then -1 else st.proposedNetCost m,
    bbUpdatedBefore := fun m =>
      if m = net then .notUpdatedYet else st.bbUpdatedBefore m }

/-- `update_move_nets`: commit of a trial (cube mode), iterating
`commitStep` over the affected-net list. -/
def update_move_nets (smallNet : Nat) (numLayers : Nat) (netSinks : Nat → Nat)
    (s : PlacerState) : PlacerState :=
  s.tsNetsToUpdate.foldl (commitStep smallNet numLayers netSinks) s

/-- `ERROR_TOL`: the 1 % relative tolerance of the consistency check. -/
def ERROR_TOL : ℚ := 0.01

/-- The cost terms tracked by the placer (`t_placer_costs`). -/
structure PlacerCosts where
  cost : ℚ
  bbCost : ℚ
  bbCostNorm : ℚ
  timingCost : ℚ
  nocAggregateBandwidthCost : ℚ
  nocLatencyCost : ℚ
deriving DecidableEq, Repr

/-- `recompute_bb_cost`: fresh sum of the per-net cost cache over all
non-ignored nets; each list entry is a net's (ignored flag, cached cost). -/
def recompute_bb_cost (nets : List (Bool × ℚ)) : ℚ :=
  nets.foldl (fun cost n => if !n.1 then cost + n.2 else cost) 0

/-- The NoC part of `recompute_costs_from_scratch`: bandwidth always checked
against the tolerance, latency checked only above the
minimum-expected-latency threshold; both recomputed values are folded in. -/
def noc_recheck (newBw newLat minExpectedNocLatency : ℚ) (c : PlacerCosts) :
    Except String PlacerCosts :=
  if |newBw - c.nocAggregateBandwidthCost| > c.nocAggregateBandwidthCost * ERROR_TOL then
    .error "recompute_costs_from_scratch: noc_aggregate_bandwidth_cost mismatch"
  else
    let c1 := { c with nocAggregateBandwidthCost := newBw }
    if newLat > minExpectedNocLatency then
      if |newLat - c1.nocLatencyCost| > c1.nocLatencyCost * ERROR_TOL then
        .error "recompute_costs_from_scratch: noc_latency_cost mismatch"
      else .ok { c1 with nocLatencyCost := newLat }
    else .ok { c1 with nocLatencyCost := newLat }

/-- `recompute_costs_from_scratch`: recompute each enabled cost term and
raise a fatal `VPR_ERROR` (modelled as `Except.error`, which aborts the
remaining updates) whenever a recomputed term differs from the tracked one
by more than `ERROR_TOL` relative; otherwise fold the recomputed values in. -/
def recompute_costs_from_scratch (timingDriven noc : Bool)
    (nets : List (Bool × ℚ))
    (newTimingCost newNocBw newNocLat minExpectedNocLatency : ℚ)
    (costs : PlacerCosts) : Except String PlacerCosts :=
  let newBBCost := recompute_bb_cost nets
  if |newBBCost - costs.bbCost| > costs.bbCost * ERROR_TOL then
    .error "recompute_costs_from_scratch: bb_cost mismatch"
  else
    let c1 := { costs with bbCost := newBBCost }
    let c2res : Except String PlacerCosts :=
      if timingDriven then
        if |newTimingCost - c1.timingCost| > c1.timingCost * ERROR_TOL then
          .error "recompute_costs_from_scratch: timing_cost mismatch"
        else .ok { c1 with timingCost := newTimingCost }
      else .ok { c1 with cost := newBBCost * c1.bbCostNorm }
    match c2res with
    | .error m => .error m
    | .ok c2 => if noc then noc_recheck newNocBw newNocLat minExpectedNocLatency c2 else .ok c2

end VtrPlace

namespace VtrDraw

/-- `string_is_a_number`: true when every character is a decimal digit
(vacuously true for the empty string). -/
def string_is_a_number (blockId : String) : Bool :=
  blockId.data.all Char.isDigit

/-- The read-only surroundings of the manual-move panel: block-id validity
(`valid_block_id`), name lookup (`find_block`, an invalid id for a missing
name), the placement table (`block_locs`), the shared move-legality check
(`is_legal_swap_to_location`) and C `atoi`. -/
structure MMWorld where
  validBlockId : Int → Bool
  findBlock : String → Int
  blockLoc : Int → Int × Int × Int
  isLegalSwap : Int → Int × Int × Int → Bool
  atoi : String → Int

/-- Resolution of the Block ID/Name entry: an all-digit string is parsed as
a numeric id, anything else is looked up as a block name. -/
def resolved_block_id (w : MMWorld) (blockEntry : String) : Int :=
  if string_is_a_number blockEntry then w.atoi blockEntry else w.findBlock blockEntry

/-- The process-wide manual-move request record (`ManualMovesInfo`), the
parts touched by the submit callback. -/
structure ManualMoveInfo where
  validInput : Bool
  blockID : Int
  xPos : Int
  yPos : Int
  subtile : Int
  toLocation : Int × Int × Int
deriving DecidableEq, Repr

/-- Everything observable about one run of the submit callback: the request
record afterwards, the inline diagnostics shown (in order), whether the
target block was highlighted, whether the cost-preview step was triggered,
and whether the panel window is open. -/
structure CallbackResult where
  info : ManualMoveInfo
  messages : List String
  highlighted : Bool
  proceeded : Bool
  windowOpen : Bool
deriving DecidableEq, Repr

/-- `calculate_cost_callback`: validate the four form entries in order
(unresolvable block, shared legality check — silent, destination equal to
the current location, any empty field), accumulating the inline diagnostics
and a single validity flag; only a fully valid submission records the
request, highlights the block and proceeds to the cost preview. -/
def calculate_cost_callback (w : MMWorld)
    (blockEntry xEntry yEntry subtileEntry : String)
    (prev : ManualMoveInfo) (windowOpen : Bool) : CallbackResult :=
  let blockId := resolved_block_id w blockEntry
  let v1 := w.validBlockId blockId
  let msgs1 : List String := if v1 then [] else ["Invalid block ID/Name"]
  let x := w.atoi xEntry
  let y := w.atoi yEntry
  let st := w.atoi subtileEntry
  let toLoc := (x, y, st)
  let v2 := if w.isLegalSwap blockId toLoc then v1 else false
  let cur := w.blockLoc blockId
  let sameLoc := x = cur.1 ∧ y = cur.2.1 ∧ st = cur.2.2
  let msgs2 := if sameLoc then msgs1 ++ ["The block is currently in this location"] else msgs1
  let v3 := if sameLoc then false else v2
  let anyEmpty := blockEntry.isEmpty || xEntry.isEmpty || yEntry.isEmpty
    || subtileEntry.isEmpty
  let msgs3 := if anyEmpty then msgs2 ++ ["Not all fields are complete"] else msgs2
  let v4 := if anyEmpty then false else v3
  if v4 then
    { info := ⟨true, blockId, x, y, st, toLoc⟩, messages := msgs3,
      highlighted := true, proceeded := true, windowOpen := windowOpen }
  else
    { info := { prev with validInput := false }, messages := msgs3,
      highlighted := false, proceeded := false, windowOpen := windowOpen }

end VtrDraw

namespace OdinMem

/-- `shift_left_value_with_overflow_check(0x1, w, loc)`: the value `2 ^ w`. -/
def shift_left_value (w : Nat) : Int := 2 ^ w

/-- The `while (shifted_value < depth)` doubling loop of
`perform_optimization`, with explicit fuel; `w` and `sh` carry
`needed_addr_width` and `shifted_value`. -/
def nawAux (depth : Int) : Nat → Nat → Int → Nat
  | 0, w, _ => w
  | fuel + 1, w, sh =>
    if sh < depth then nawAux depth fuel (w + 1) (shift_left_value (w + 1)) else w

/-- `needed_addr_width` as computed by `perform_optimization`'s loop,
starting from `needed_addr_width = 0`, `shifted_value = 0`. -/
def needed_addr_width (depth : Int) : Nat := nawAux depth (depth.toNat + 1) 0 0

/-- A netlist pin, identified by the net driving it (`npin_t::net`). -/
structure NPin where
  net : Int
deriving DecidableEq, Repr

/-- Modelled from the spec: `prune_signal` (declared in `BlockMemories.hh`,
defined outside this slice) prunes an address SignalList "to exactly that
many bits per port when they are wider", keeping `neededWidth` low-order
bits of each of the `numPorts` ports and leaving the list untouched when it
is not wider. -/
def prune_signal (sig : List NPin) (prevWidth neededWidth numPorts : Nat) :
    List NPin :=
  if neededWidth < prevWidth then
    ((List.range numPorts).map (fun p => (sig.drop (p * prevWidth)).take neededWidth)).flatten
  else sig

/-- The attributes of a behavioral memory node used by the elaborator:
depth (`size`), address width (`ABITS`), port counts and data width. -/
structure MemNode where
  size : Int
  ABITS : Nat
  RD_PORTS : Int
  WR_PORTS : Int
  DBITS : Int
deriving DecidableEq, Repr

/-- A `block_memory` record, restricted to the fields the modelled passes
read: the originating node and the read/write address SignalLists (absent
for a read-only memory's write side). -/
structure BlockMemory where
  node : MemNode
  read_addr : Option (List NPin)
  write_addr : Option (List NPin)
deriving DecidableEq, Repr

/-- `perform_optimization`: compute `needed_addr_width` by the doubling
loop, prune the read and write address SignalLists when present, and update
the node's ABITS attribute. -/
def perform_optimization (m : BlockMemory) : BlockMemory :=
  let naw := needed_addr_width m.node.size
  let ra := match m.read_addr with
    | some sig => some (prune_signal sig m.node.ABITS naw m.node.RD_PORTS.toNat)
    | none => none
  let wa := match m.write_addr with
    | some sig => some (prune_signal sig m.node.ABITS naw m.node.WR_PORTS.toNat)
    | none => none
  { m with read_addr := ra, write_addr := wa, node := { m.node with ABITS := naw } }

/-- `check_same_addrs`: false when the read and write address widths differ,
otherwise true exactly when every corresponding pin pair is driven by the
same net. -/
def check_same_addrs (readAddr writeAddr : List NPin) : Bool :=
  if readAddr.length ≠ writeAddr.length then false
  else (readAddr.zip writeAddr).all (fun p => p.1.net == p.2.net)

/-- The hard-block shapes `map_bram_to_mem_hardblocks` can emit, plus the
unimplemented LUTRAM placeholder (which creates nothing) and the fatal
unsupported-port-count diagnostic. -/
inductive MemHardblock where
  | lutramPlaceholder
  | spram
  | dpramRW
  | dpramR2W
  | dpram2RW
  | dpram2R2W
  | fatalUnsupported
deriving DecidableEq, Repr

/-- What the surrounding architecture provides: whether a LUTRAM hard-block
model exists (`find_hard_block(LUTRAM_string)`), and the LUTRAM area
thresholds. -/
structure HardBlockEnv where
  lutramModelExists : Bool
  lutramMinThresholdArea : Int
  lutramMaxThresholdArea : Int
deriving DecidableEq, Repr

/-- `map_bram_to_mem_hardblocks`: the LUTRAM area gate first (an
unimplemented placeholder when it fires), then the port-count dispatch; note
the 1-read case literally compares `wr_ports == (rd_ports == 1)`, with the
boolean converting to 0 or 1. -/
def map_bram_to_mem_hardblocks (env : HardBlockEnv) (m : BlockMemory) :
    MemHardblock :=
  let width := m.node.DBITS
  let depth := shift_left_value m.node.ABITS
  let rdPorts := m.node.RD_PORTS
  let wrPorts := m.node.WR_PORTS
  let bramRelativeArea := depth * width
  if env.lutramModelExists ∧ env.lutramMinThresholdArea ≤ bramRelativeArea
      ∧ bramRelativeArea ≤ env.lutramMaxThresholdArea then
    .lutramPlaceholder
  else if wrPorts = (if rdPorts = 1 then 1 else 0) then
    if check_same_addrs (m.read_addr.getD []) (m.write_addr.getD []) then .spram
    else .dpramRW
  else if rdPorts = 1 ∧ wrPorts = 2 then .dpramR2W
  else if rdPorts = 2 ∧ wrPorts = 1 then .dpram2RW
  else if rdPorts = 2 ∧ wrPorts = 2 then .dpram2R2W
  else .fatalUnsupported

end OdinMem

/-! ## Theorems -/

open VtrPlace VtrDraw OdinMem

/-- Folding an accumulate-or-skip loop body equals the initial value plus the
sum of the contributions of the non-skipped elements. -/
theorem foldl_skip_eq_sum (f : Nat → ℚ) (p : Nat → Prop) [DecidablePred p] :
    ∀ (xs : List Nat) (init : ℚ),
    xs.foldl (fun acc l => if p l then acc else acc + f l) init
      = init + ((xs.filter (fun l => !(decide (p l)))).map f).sum := by
  intro xs
  induction xs with
  | nil => simp
  | cons a t ih =>
    intro init
    by_cases h : p a
    · simp [List.foldl_cons, List.filter_cons, h, ih]
    · simp [List.foldl_cons, List.filter_cons, h, ih]
      ring

/-- **C1**: for a non-ignored net with committed box {xmin,xmax,ymin,ymax},
`get_net_cost` equals
`(xmax−xmin+1)·crossing·chanx[ymax][ymin−1] + (ymax−ymin+1)·crossing·chany[xmax][xmin−1]`
with `crossing` the crossing count of the net's total pin count; and
`get_net_layer_cost` equals the sum of that same formula over exactly the
layers whose sink-pin count is nonzero, with `sinkCount[layer]+1` as the
fanout of each layer's crossing count. -/
theorem C1_net_cost_formula :
    (∀ (numNetPins : Nat) (chanxFac chanyFac : Int → Int → ℚ) (bb : TBB),
      get_net_cost numNetPins chanxFac chanyFac bb
        = ((bb.xmax - bb.xmin + 1 : Int) : ℚ)
            * wirelength_crossing_count numNetPins
            * chanxFac bb.ymax (bb.ymin - 1)
          + ((bb.ymax - bb.ymin + 1 : Int) : ℚ)
            * wirelength_crossing_count numNetPins
            * chanyFac bb.xmax (bb.xmin - 1))
    ∧ (∀ (chanxFac chanyFac : Int → Int → ℚ) (numLayers : Nat)
        (bb : List T2DBB) (sinkCount : List Int),
      get_net_layer_cost chanxFac chanyFac numLayers bb sinkCount
        = (((List.range numLayers).filter
              (fun l => !(decide (sinkCount.getD l 0 = 0)))).map (fun l =>
            let b := bb.getD l default2D
            let crossing := wirelength_crossing_count (sinkCount.getD l 0 + 1).toNat
            ((b.xmax - b.xmin + 1 : Int) : ℚ) * crossing * chanxFac b.ymax (b.ymin - 1)
              + ((b.ymax - b.ymin + 1 : Int) : ℚ) * crossing
                * chanyFac b.xmax (b.xmin - 1))).sum) := by
  constructor
  · intro numNetPins chanxFac chanyFac bb
    rfl
  · intro chanxFac chanyFac numLayers bb sinkCount
    unfold get_net_layer_cost
    rw [foldl_skip_eq_sum (fun l => layerCostTerm chanxFac chanyFac bb sinkCount l)
        (fun l => sinkCount.getD l 0 = 0) (List.range numLayers) 0]
    simp [layerCostTerm]

/-- **C2**: `wirelength_crossing_count` is exactly 1.0 for every fanout in
[1, 3], 2.7933 at fanout 50, and `2.7933 + 0.02616·(fanout−50)` for every
fanout above 50, so fanout 51 gives 2.81946 and fanout 100 gives 4.1013. -/
theorem C2_crossing_count_boundaries :
    (∀ f : Nat, 1 ≤ f → f ≤ 3 → wirelength_crossing_count f = 1)
    ∧ wirelength_crossing_count 50 = 2.7933
    ∧ (∀ f : Nat, 50 < f →
        wirelength_crossing_count f = 2.7933 + 0.02616 * ((f - 50 : Nat) : ℚ))
    ∧ wirelength_crossing_count 51 = 2.81946
    ∧ wirelength_crossing_count 100 = 4.1013 := by
  refine ⟨?_, by norm_num [wirelength_crossing_count, cross_count], ?_, ?_, ?_⟩
  · intro f h1 h3
    interval_cases f <;> norm_num [wirelength_crossing_count, cross_count]
  · intro f hf
    simp [wirelength_crossing_count, hf]
  · norm_num [wirelength_crossing_count]
  · norm_num [wirelength_crossing_count]

/-- Witness for C2 at fanouts 2 and 60. -/
theorem C2_crossing_count_boundaries_witness :
    wirelength_crossing_count 2 = 1
    ∧ wirelength_crossing_count 60 = 2.7933 + 0.02616 * ((60 - 50 : Nat) : ℚ) :=
  ⟨C2_crossing_count_boundaries.1 2 (by norm_num) (by norm_num),
   C2_crossing_count_boundaries.2.2.1 60 (by norm_num)⟩

/-- **C6**: `recompute_costs_from_scratch` raises a fatal placement error if
and only if the recomputed bounding-box cost — and, when timing-driven, the
recomputed timing cost; when NoC is enabled, the recomputed NoC costs —
differs from the incrementally tracked value by more than `ERROR_TOL`
relative, except that the NoC latency comparison is skipped when the
recomputed latency is at or below the minimum-expected-latency threshold. -/
theorem C6_consistency_check_iff :
    ∀ (timingDriven noc : Bool) (nets : List (Bool × ℚ))
      (newTimingCost newNocBw newNocLat minExpectedNocLatency : ℚ)
      (costs : PlacerCosts),
    (∃ msg, recompute_costs_from_scratch timingDriven noc nets newTimingCost
        newNocBw newNocLat minExpectedNocLatency costs = .error msg)
      ↔ (|recompute_bb_cost nets - costs.bbCost| > costs.bbCost * ERROR_TOL
         ∨ (timingDriven = true
            ∧ |newTimingCost - costs.timingCost| > costs.timingCost * ERROR_TOL)
         ∨ (noc = true
            ∧ (|newNocBw - costs.nocAggregateBandwidthCost|
                 > costs.nocAggregateBandwidthCost * ERROR_TOL
               ∨ (newNocLat > minExpectedNocLatency
                  ∧ |newNocLat - costs.nocLatencyCost|
                      > costs.nocLatencyCost * ERROR_TOL)))) := by
  intro timingDriven noc nets newTimingCost newNocBw newNocLat minLat costs
  cases timingDriven <;> cases noc <;>
    simp only [recompute_costs_from_scratch, noc_recheck] <;>
    split_ifs <;> simp_all
  all_goals split_ifs <;> simp_all

/-- **C9**: submitting the manual-move form shows "Invalid block ID/Name"
for an unresolvable identifier, "The block is currently in this location"
for a destination equal to the block's current (x, y, sub-tile), and
"Not all fields are complete" for any empty field; in every invalid case the
panel stays open, no request (block id, destination) is recorded and no
block is highlighted; only when all checks pass is the request recorded and
the cost-preview step triggered. -/
theorem C9_manual_move_validation :
    ∀ (w : MMWorld) (blockEntry xEntry yEntry subtileEntry : String)
      (prev : ManualMoveInfo) (winOpen : Bool),
    (w.validBlockId (resolved_block_id w blockEntry) = false →
      "Invalid block ID/Name" ∈ (calculate_cost_callback w blockEntry xEntry
        yEntry subtileEntry prev winOpen).messages)
    ∧ ((w.atoi xEntry = (w.blockLoc (resolved_block_id w blockEntry)).1
        ∧ w.atoi yEntry = (w.blockLoc (resolved_block_id w blockEntry)).2.1
        ∧ w.atoi subtileEntry = (w.blockLoc (resolved_block_id w blockEntry)).2.2) →
      "The block is currently in this location" ∈ (calculate_cost_callback w
        blockEntry xEntry yEntry subtileEntry prev winOpen).messages)
    ∧ ((blockEntry.isEmpty = true ∨ xEntry.isEmpty = true ∨ yEntry.isEmpty = true
        ∨ subtileEntry.isEmpty = true) →
      "Not all fields are complete" ∈ (calculate_cost_callback w blockEntry
        xEntry yEntry subtileEntry prev winOpen).messages)
    ∧ (¬(w.validBlockId (resolved_block_id w blockEntry) = true
          ∧ w.isLegalSwap (resolved_block_id w blockEntry)
              (w.atoi xEntry, w.atoi yEntry, w.atoi subtileEntry) = true
          ∧ ¬(w.atoi xEntry = (w.blockLoc (resolved_block_id w blockEntry)).1
              ∧ w.atoi yEntry = (w.blockLoc (resolved_block_id w blockEntry)).2.1
              ∧ w.atoi subtileEntry = (w.blockLoc (resolved_block_id w blockEntry)).2.2)
          ∧ ¬(blockEntry.isEmpty = true ∨ xEntry.isEmpty = true
              ∨ yEntry.isEmpty = true ∨ subtileEntry.isEmpty = true)) →
      (calculate_cost_callback w blockEntry xEntry yEntry subtileEntry prev
          winOpen).info.blockID = prev.blockID
      ∧ (calculate_cost_callback w blockEntry xEntry yEntry subtileEntry prev
          winOpen).info.toLocation = prev.toLocation
      ∧ (calculate_cost_callback w blockEntry xEntry yEntry subtileEntry prev
          winOpen).info.validInput = false
      ∧ (calculate_cost_callback w blockEntry xEntry yEntry subtileEntry prev
          winOpen).highlighted = false
      ∧ (calculate_cost_callback w blockEntry xEntry yEntry subtileEntry prev
          winOpen).proceeded = false
      ∧ (calculate_cost_callback w blockEntry xEntry yEntry subtileEntry prev
          winOpen).windowOpen = winOpen)
    ∧ ((calculate_cost_callback w blockEntry xEntry yEntry subtileEntry prev
          winOpen).proceeded = true
        ↔ (w.validBlockId (resolved_block_id w blockEntry) = true
          ∧ w.isLegalSwap (resolved_block_id w blockEntry)
              (w.atoi xEntry, w.atoi yEntry, w.atoi subtileEntry) = true
          ∧ ¬(w.atoi xEntry = (w.blockLoc (resolved_block_id w blockEntry)).1
              ∧ w.atoi yEntry = (w.blockLoc (resolved_block_id w blockEntry)).2.1
              ∧ w.atoi subtileEntry = (w.blockLoc (resolved_block_id w blockEntry)).2.2)
          ∧ ¬(blockEntry.isEmpty = true ∨ xEntry.isEmpty = true
              ∨ yEntry.isEmpty = true ∨ subtileEntry.isEmpty = true)))
    ∧ ((w.validBlockId (resolved_block_id w blockEntry) = true
          ∧ w.isLegalSwap (resolved_block_id w blockEntry)
              (w.atoi xEntry, w.atoi yEntry, w.atoi subtileEntry) = true
          ∧ ¬(w.atoi xEntry = (w.blockLoc (resolved_block_id w blockEntry)).1
              ∧ w.atoi yEntry = (w.blockLoc (resolved_block_id w blockEntry)).2.1
              ∧ w.atoi subtileEntry = (w.blockLoc (resolved_block_id w blockEntry)).2.2)
          ∧ ¬(blockEntry.isEmpty = true ∨ xEntry.isEmpty = true
              ∨ yEntry.isEmpty = true ∨ subtileEntry.isEmpty = true)) →
      (calculate_cost_callback w blockEntry xEntry yEntry subtileEntry prev
          winOpen).info
        = ⟨true, resolved_block_id w blockEntry, w.atoi xEntry, w.atoi yEntry,
            w.atoi subtileEntry,
            (w.atoi xEntry, w.atoi yEntry, w.atoi subtileEntry)⟩
      ∧ (calculate_cost_callback w blockEntry xEntry yEntry subtileEntry prev
          winOpen).highlighted = true
      ∧ (calculate_cost_callback w blockEntry xEntry yEntry subtileEntry prev
          winOpen).windowOpen = winOpen) := by
  intro w blockEntry xEntry yEntry subtileEntry prev winOpen
  by_cases h1 : w.validBlockId (resolved_block_id w blockEntry) = true <;>
  by_cases h2 : w.isLegalSwap (resolved_block_id w blockEntry)
      (w.atoi xEntry, w.atoi yEntry, w.atoi subtileEntry) = true <;>
  by_cases h3 : (w.atoi xEntry = (w.blockLoc (resolved_block_id w blockEntry)).1
      ∧ w.atoi yEntry = (w.blockLoc (resolved_block_id w blockEntry)).2.1
      ∧ w.atoi subtileEntry = (w.blockLoc (resolved_block_id w blockEntry)).2.2) <;>
  by_cases h4 : (blockEntry.isEmpty = true ∨ xEntry.isEmpty = true
      ∨ yEntry.isEmpty = true ∨ subtileEntry.isEmpty = true) <;>
    simp_all [calculate_cost_callback]
  all_goals split_ifs <;> simp_all

/-- Witness for C9: a block at (2, 3, 0) submitted to destination (2, 3, 0)
is told "The block is currently in this location". -/
theorem C9_manual_move_validation_witness :
    "The block is currently in this location" ∈
      (calculate_cost_callback
        ⟨fun b => b == 3, fun _ => -1, fun _ => (2, 3, 0), fun _ _ => true,
         fun s => if s = "2" then 2 else if s = "3" then 3 else 0⟩
        "3" "2" "3" "0" ⟨false, 0, 0, 0, 0, (0, 0, 0)⟩ true).messages :=
  (C9_manual_move_validation
    ⟨fun b => b == 3, fun _ => -1, fun _ => (2, 3, 0), fun _ _ => true,
     fun s => if s = "2" then 2 else if s = "3" then 3 else 0⟩
    "3" "2" "3" "0" ⟨false, 0, 0, 0, 0, (0, 0, 0)⟩ true).2.1 (by decide)

/-- Loop invariant of the `needed_addr_width` doubling loop: started at width
`w` with `shifted_value = 2 ^ w` and enough fuel, it stops at the least
width at or above `w` whose power of two reaches `depth`. -/
theorem nawAux_spec (depth : Int) :
    ∀ (fuel : Nat) (w : Nat), depth ≤ 2 ^ (w + fuel) →
      depth ≤ 2 ^ nawAux depth fuel w (2 ^ w)
      ∧ w ≤ nawAux depth fuel w (2 ^ w)
      ∧ (∀ v : Nat, w ≤ v → v < nawAux depth fuel w (2 ^ w) → (2:Int) ^ v < depth) := by
  intro fuel
  induction fuel with
  | zero =>
    intro w hle
    refine ⟨by simpa [nawAux] using hle, by simp [nawAux], ?_⟩
    intro v h1 h2
    simp [nawAux] at h2
    omega
  | succ n ih =>
    intro w hle
    by_cases h : (2:Int) ^ w < depth
    · have hrec := ih (w + 1) (by
        have : w + 1 + n = w + (n + 1) := by omega
        rw [this]; exact hle)
      have hstep : nawAux depth (n + 1) w (2 ^ w)
          = nawAux depth n (w + 1) (2 ^ (w + 1)) := by
        simp [nawAux, h, shift_left_value]
      rw [hstep]
      obtain ⟨a, b, c⟩ := hrec
      refine ⟨a, by omega, ?_⟩
      intro v h1 h2
      by_cases hv : v = w
      · subst hv; exact h
      · exact c v (by omega) h2
    · push_neg at h
      have hstep : nawAux depth (n + 1) w (2 ^ w) = w := by
        simp [nawAux]
        omega
      rw [hstep]
      exact ⟨h, le_refl w, fun v h1 h2 => by omega⟩

/-- For a positive depth, the loop in `perform_optimization` computes the
least width `w ≥ 1` with `2 ^ w ≥ depth`. -/
theorem needed_addr_width_spec (depth : Int) (hd : 1 ≤ depth) :
    depth ≤ 2 ^ needed_addr_width depth
    ∧ 1 ≤ needed_addr_width depth
    ∧ (∀ v : Nat, 1 ≤ v → v < needed_addr_width depth → (2:Int) ^ v < depth) := by
  have hfuel : depth ≤ 2 ^ (1 + depth.toNat) := by
    have h2 : depth.toNat < 2 ^ depth.toNat := Nat.lt_two_pow _
    have h3 : ((depth.toNat : Int)) < (2:Int) ^ depth.toNat := by exact_mod_cast h2
    have h4 : (depth.toNat : Int) = depth := Int.toNat_of_nonneg (by omega)
    have h5 : (2:Int) ^ depth.toNat ≤ 2 ^ (1 + depth.toNat) :=
      pow_le_pow_right₀ (by norm_num) (by omega)
    omega
  have hstep : needed_addr_width depth = nawAux depth depth.toNat 1 (2 ^ 1) := by
    unfold needed_addr_width
    simp [nawAux, shift_left_value, show (0:Int) < depth from by omega]
  have h := nawAux_spec depth depth.toNat 1 hfuel
  rw [hstep]
  exact h

/-- The pruned length of an address SignalList: exactly `neededWidth` bits
per port when the list was wider, untouched otherwise. -/
theorem prune_signal_length (sig : List NPin) (prevW nw ports : Nat)
    (hlen : sig.length = ports * prevW) :
    (prune_signal sig prevW nw ports).length
      = if nw < prevW then ports * nw else ports * prevW := by
  unfold prune_signal
  split_ifs with h
  · rw [List.length_flatten, List.map_map]
    have hcongr : ∀ p ∈ List.range ports,
        (List.length ∘ fun p => (sig.drop (p * prevW)).take nw) p = nw := by
      intro p hp
      have hplt : p < ports := List.mem_range.mp hp
      simp only [Function.comp_apply, List.length_take, List.length_drop, hlen]
      have hmul : p * prevW + prevW ≤ ports * prevW := by
        have := Nat.mul_le_mul_right prevW (Nat.succ_le_of_lt hplt)
        calc p * prevW + prevW = (p + 1) * prevW := by ring
          _ ≤ ports * prevW := this
      omega
    rw [List.map_congr_left hcongr]
    simp [List.sum_replicate, smul_eq_mul, List.map_const]
  · exact hlen

/-- **C7** (amended): the elaborator's `perform_optimization` computes
`needed_addr_width` as the minimal `w` with `2^w ≥ depth` for every depth
≥ 2 (depth 100 gives 7, depth 64 gives 6; a depth-1 memory gives 1, not 0,
because the doubling loop starts below `2^0`), prunes the read and write
address SignalLists to exactly that many bits per port when they are wider,
and updates the node's ABITS attribute to `needed_addr_width`. -/
theorem C7_address_width_amended :
    (∀ depth : Int, 2 ≤ depth →
      depth ≤ 2 ^ needed_addr_width depth
      ∧ (∀ v : Nat, v < needed_addr_width depth → (2:Int) ^ v < depth))
    ∧ needed_addr_width 100 = 7
    ∧ needed_addr_width 64 = 6
    ∧ needed_addr_width 1 = 1
    ∧ (∀ (sig : List NPin) (prevW nw ports : Nat), sig.length = ports * prevW →
        (prune_signal sig prevW nw ports).length
          = if nw < prevW then ports * nw else ports * prevW)
    ∧ (∀ m : BlockMemory,
        (perform_optimization m).node.ABITS = needed_addr_width m.node.size
        ∧ (perform_optimization m).read_addr
            = m.read_addr.map (fun sig => prune_signal sig m.node.ABITS
                (needed_addr_width m.node.size) m.node.RD_PORTS.toNat)
        ∧ (perform_optimization m).write_addr
            = m.write_addr.map (fun sig => prune_signal sig m.node.ABITS
                (needed_addr_width m.node.size) m.node.WR_PORTS.toNat)) := by
  refine ⟨?_, by decide, by decide, by decide, prune_signal_length, ?_⟩
  · intro depth hd
    obtain ⟨h1, h2, h3⟩ := needed_addr_width_spec depth (by omega)
    refine ⟨h1, ?_⟩
    intro v hv
    by_cases hv0 : v = 0
    · subst hv0; norm_num; omega
    · exact h3 v (by omega) hv
  · intro m
    refine ⟨rfl, ?_, ?_⟩ <;> cases hr : m.read_addr <;> cases hw : m.write_addr <;>
      simp [perform_optimization, hr, hw]

/-- Counterexample for C7 as stated: at depth 1 the minimal `w` with
`2^w ≥ depth` is 0 (since `2^0 = 1 ≥ 1`), but the code computes 1. -/
theorem C7_address_width_counterexample :
    (1:Int) ≤ 2 ^ (0:Nat) ∧ needed_addr_width 1 = 1 := by decide

/-- Witness for C7 at depth 100. -/
theorem C7_address_width_amended_witness :
    (100:Int) ≤ 2 ^ needed_addr_width 100
    ∧ (∀ v : Nat, v < needed_addr_width 100 → (2:Int) ^ v < 100) :=
  C7_address_width_amended.1 100 (by norm_num)

/-- Pointwise-net characterisation of the `check_same_addrs` pin loop over
two address lists of equal width. -/
theorem zip_all_net_iff :
    ∀ (ra wa : List NPin), ra.length = wa.length →
    (((ra.zip wa).all (fun p => p.1.net == p.2.net)) = true
      ↔ ∀ i, i < ra.length → (ra.getD i ⟨0⟩).net = (wa.getD i ⟨0⟩).net) := by
  intro ra
  induction ra with
  | nil => intro wa _; simp
  | cons a ra ih =>
    intro wa hlen
    cases wa with
    | nil => simp at hlen
    | cons b wa =>
      simp only [List.zip_cons_cons, List.all_cons, Bool.and_eq_true, beq_iff_eq]
      rw [ih wa (by simpa using hlen)]
      constructor
      · rintro ⟨h0, h⟩ i hi
        cases i with
        | zero => simpa using h0
        | succ j => simpa using h j (by simpa using hi)
      · intro h
        refine ⟨by simpa using h 0 (by simp), ?_⟩
        intro j hj
        simpa using h (j + 1) (by simpa using hj)

/-- `check_same_addrs` is true exactly when the two address lists have equal
width and every corresponding pin pair is driven by the same net. -/
theorem check_same_addrs_iff (ra wa : List NPin) :
    check_same_addrs ra wa = true
      ↔ ra.length = wa.length
        ∧ ∀ i, i < ra.length → (ra.getD i ⟨0⟩).net = (wa.getD i ⟨0⟩).net := by
  unfold check_same_addrs
  split_ifs with h
  · simp [h]
  · push_neg at h
    rw [zip_all_net_iff ra wa h]
    simp [h]

/-- **C8** (amended): for a block memory with exactly 1 read and 1 write
port, provided the (unimplemented placeholder) LUTRAM area gate does not
fire, lowering produces a single-port RAM exactly when the read and write
address SignalLists have equal width and every corresponding pin pair is
driven by the same net, and a read/write dual-port RAM otherwise. -/
theorem C8_memory_shape_amended :
    ∀ (env : HardBlockEnv) (m : BlockMemory),
    ¬(env.lutramModelExists = true
        ∧ env.lutramMinThresholdArea ≤ shift_left_value m.node.ABITS * m.node.DBITS
        ∧ shift_left_value m.node.ABITS * m.node.DBITS ≤ env.lutramMaxThresholdArea) →
    m.node.RD_PORTS = 1 → m.node.WR_PORTS = 1 →
    (map_bram_to_mem_hardblocks env m = .spram
        ↔ ((m.read_addr.getD []).length = (m.write_addr.getD []).length
           ∧ ∀ i, i < (m.read_addr.getD []).length →
               ((m.read_addr.getD []).getD i ⟨0⟩).net
                 = ((m.write_addr.getD []).getD i ⟨0⟩).net))
    ∧ (map_bram_to_mem_hardblocks env m = .dpramRW
        ↔ ¬((m.read_addr.getD []).length = (m.write_addr.getD []).length
           ∧ ∀ i, i < (m.read_addr.getD []).length →
               ((m.read_addr.getD []).getD i ⟨0⟩).net
                 = ((m.write_addr.getD []).getD i ⟨0⟩).net))
    ∧ (map_bram_to_mem_hardblocks env m = .spram
       ∨ map_bram_to_mem_hardblocks env m = .dpramRW) := by
  intro env m hGate hr hw
  have hmap : map_bram_to_mem_hardblocks env m
      = if check_same_addrs (m.read_addr.getD []) (m.write_addr.getD [])
        then .spram else .dpramRW := by
    unfold map_bram_to_mem_hardblocks
    rw [if_neg hGate, if_pos (by rw [hr, hw]; norm_num)]
  rw [hmap, ← check_same_addrs_iff]
  by_cases h : check_same_addrs (m.read_addr.getD []) (m.write_addr.getD []) = true <;>
    simp [h]

/-- Counterexample for C8 as stated: a 1-read/1-write block memory with
identical address nets is lowered to nothing (the unimplemented LUTRAM
placeholder), not to a single-port RAM, when a LUTRAM hard-block model
exists and the memory's relative area falls inside the LUTRAM window. -/
theorem C8_memory_shape_counterexample :
    (⟨⟨4, 2, 1, 1, 8⟩, some [⟨5⟩, ⟨6⟩], some [⟨5⟩, ⟨6⟩]⟩ : BlockMemory).node.RD_PORTS = 1
    ∧ (⟨⟨4, 2, 1, 1, 8⟩, some [⟨5⟩, ⟨6⟩], some [⟨5⟩, ⟨6⟩]⟩ : BlockMemory).node.WR_PORTS = 1
    ∧ check_same_addrs [(⟨5⟩ : NPin), ⟨6⟩] [(⟨5⟩ : NPin), ⟨6⟩] = true
    ∧ map_bram_to_mem_hardblocks ⟨true, 0, 1000000⟩
        ⟨⟨4, 2, 1, 1, 8⟩, some [⟨5⟩, ⟨6⟩], some [⟨5⟩, ⟨6⟩]⟩ = .lutramPlaceholder
    ∧ map_bram_to_mem_hardblocks ⟨true, 0, 1000000⟩
        ⟨⟨4, 2, 1, 1, 8⟩, some [⟨5⟩, ⟨6⟩], some [⟨5⟩, ⟨6⟩]⟩ ≠ .spram := by
  decide

/-- Witness for C8: with no LUTRAM model, a 1-read/1-write memory with
identical address nets maps to a single-port RAM. -/
theorem C8_memory_shape_amended_witness :
    map_bram_to_mem_hardblocks ⟨false, 0, 1000000⟩
        ⟨⟨4, 2, 1, 1, 8⟩, some [⟨5⟩, ⟨6⟩], some [⟨5⟩, ⟨6⟩]⟩ = .spram :=
  ((C8_memory_shape_amended ⟨false, 0, 1000000⟩
      ⟨⟨4, 2, 1, 1, 8⟩, some [⟨5⟩, ⟨6⟩], some [⟨5⟩, ⟨6⟩]⟩
      (by decide) (by decide) (by decide)).1).mpr (by decide)

/-- No trial step writes any committed per-net field. -/
theorem applyTrialOp_preserves_committed (smallNet : Nat) (s : PlacerState)
    (op : TrialOp) :
    (applyTrialOp smallNet s op).netCost = s.netCost
    ∧ (applyTrialOp smallNet s op).bbCoords = s.bbCoords
    ∧ (applyTrialOp smallNet s op).bbNumOnEdges = s.bbNumOnEdges
    ∧ (applyTrialOp smallNet s op).numSinkPinLayer = s.numSinkPinLayer := by
  cases op <;> simp only [applyTrialOp, record_affected_net, update_net_bb] <;>
    (try split_ifs) <;> simp

/-- No sequence of trial steps writes any committed per-net field. -/
theorem applyTrialOps_preserves_committed (smallNet : Nat) (ops : List TrialOp) :
    ∀ s : PlacerState,
    (applyTrialOps smallNet ops s).netCost = s.netCost
    ∧ (applyTrialOps smallNet ops s).bbCoords = s.bbCoords
    ∧ (applyTrialOps smallNet ops s).bbNumOnEdges = s.bbNumOnEdges
    ∧ (applyTrialOps smallNet ops s).numSinkPinLayer = s.numSinkPinLayer := by
  induction ops with
  | nil => intro s; exact ⟨rfl, rfl, rfl, rfl⟩
  | cons op t ih =>
    intro s
    obtain ⟨h1, h2, h3, h4⟩ := ih (applyTrialOp smallNet s op)
    obtain ⟨g1, g2, g3, g4⟩ := applyTrialOp_preserves_committed smallNet s op
    exact ⟨h1.trans g1, h2.trans g2, h3.trans g3, h4.trans g4⟩

/-- The rollback loop writes nothing but the proposed-cost sentinels and the
freshness flags. -/
theorem foldl_resetStep_preserves (l : List Nat) :
    ∀ s : PlacerState,
    (l.foldl resetStep s).netCost = s.netCost
    ∧ (l.foldl resetStep s).bbCoords = s.bbCoords
    ∧ (l.foldl resetStep s).bbNumOnEdges = s.bbNumOnEdges
    ∧ (l.foldl resetStep s).numSinkPinLayer = s.numSinkPinLayer
    ∧ (l.foldl resetStep s).tsBBCoordNew = s.tsBBCoordNew
    ∧ (l.foldl resetStep s).tsBBEdgeNew = s.tsBBEdgeNew
    ∧ (l.foldl resetStep s).tsLayerSinkPinCount = s.tsLayerSinkPinCount
    ∧ (l.foldl resetStep s).tsNetsToUpdate = s.tsNetsToUpdate := by
  induction l with
  | nil => intro s; exact ⟨rfl, rfl, rfl, rfl, rfl, rfl, rfl, rfl⟩
  | cons a t ih =>
    intro s
    simpa only [List.foldl_cons, resetStep] using ih (resetStep s a)

/-- After the rollback loop, a net's sentinel is −1 and its flag is
NOT_UPDATED_YET exactly when the loop visited it; other nets keep their
values. -/
theorem foldl_resetStep_sentinel_flag (l : List Nat) :
    ∀ (s : PlacerState) (n : Nat),
    ((l.foldl resetStep s).proposedNetCost n
        = if n ∈ l then -1 else s.proposedNetCost n)
    ∧ ((l.foldl resetStep s).bbUpdatedBefore n
        = if n ∈ l then .notUpdatedYet else s.bbUpdatedBefore n) := by
  induction l with
  | nil => intro s n; simp
  | cons a t ih =>
    intro s n
    simp only [List.foldl_cons]
    obtain ⟨h1, h2⟩ := ih (resetStep s a) n
    by_cases hn : n ∈ t
    · simp [h1, h2, hn]
    · rw [h1, h2, if_neg hn, if_neg hn]
      by_cases hna : n = a <;> simp [hna, hn, resetStep]

/-- **C4**: rolling back a trial (any sequence of trial steps followed by
`reset_move_nets`, never committing) leaves every net's committed cost,
committed bounding-box coordinates, committed edge counts and committed
per-layer sink counts exactly as before the trial began; and
`reset_move_nets` itself resets only the proposed-cost sentinel (to −1) and
the freshness flag (to NOT_UPDATED_YET) of each touched net, leaving all
other state untouched. -/
theorem C4_rollback_frame (smallNet : Nat) (ops : List TrialOp) (s : PlacerState) :
    (reset_move_nets (applyTrialOps smallNet ops s)).netCost = s.netCost
    ∧ (reset_move_nets (applyTrialOps smallNet ops s)).bbCoords = s.bbCoords
    ∧ (reset_move_nets (applyTrialOps smallNet ops s)).bbNumOnEdges = s.bbNumOnEdges
    ∧ (reset_move_nets (applyTrialOps smallNet ops s)).numSinkPinLayer
        = s.numSinkPinLayer
    ∧ (∀ s' : PlacerState,
        (reset_move_nets s').netCost = s'.netCost
        ∧ (reset_move_nets s').bbCoords = s'.bbCoords
        ∧ (reset_move_nets s').bbNumOnEdges = s'.bbNumOnEdges
        ∧ (reset_move_nets s').numSinkPinLayer = s'.numSinkPinLayer
        ∧ (reset_move_nets s').tsBBCoordNew = s'.tsBBCoordNew
        ∧ (reset_move_nets s').tsBBEdgeNew = s'.tsBBEdgeNew
        ∧ (reset_move_nets s').tsLayerSinkPinCount = s'.tsLayerSinkPinCount
        ∧ (reset_move_nets s').tsNetsToUpdate = s'.tsNetsToUpdate
        ∧ ∀ n ∈ s'.tsNetsToUpdate,
            (reset_move_nets s').proposedNetCost n = -1
            ∧ (reset_move_nets s').bbUpdatedBefore n = BBFlag.notUpdatedYet) := by
  have hreset : ∀ s' : PlacerState,
      (reset_move_nets s').netCost = s'.netCost
      ∧ (reset_move_nets s').bbCoords = s'.bbCoords
      ∧ (reset_move_nets s').bbNumOnEdges = s'.bbNumOnEdges
      ∧ (reset_move_nets s').numSinkPinLayer = s'.numSinkPinLayer := by
    intro s'
    obtain ⟨h1, h2, h3, h4, _⟩ := foldl_resetStep_preserves s'.tsNetsToUpdate s'
    exact ⟨h1, h2, h3, h4⟩
  obtain ⟨t1, t2, t3, t4⟩ := applyTrialOps_preserves_committed smallNet ops s
  obtain ⟨r1, r2, r3, r4⟩ := hreset (applyTrialOps smallNet ops s)
  refine ⟨r1.trans t1, r2.trans t2, r3.trans t3, r4.trans t4, ?_⟩
  intro s'
  obtain ⟨h1, h2, h3, h4, h5, h6, h7, h8⟩ := foldl_resetStep_preserves s'.tsNetsToUpdate s'
  refine ⟨h1, h2, h3, h4, h5, h6, h7, h8, ?_⟩
  intro n hn
  obtain ⟨p1, p2⟩ := foldl_resetStep_sentinel_flag s'.tsNetsToUpdate s' n
  exact ⟨by rw [reset_move_nets, p1, if_pos hn],
         by rw [reset_move_nets, p2, if_pos hn]⟩

/-- Witness for C4: an empty trial on a concrete one-net state rolls back to
the identical committed cost table. -/
theorem C4_rollback_frame_witness :
    (reset_move_nets (applyTrialOps 4 []
        ⟨fun _ => 2, fun _ => -1, fun _ => .notUpdatedYet, fun _ => ⟨1, 1, 1, 1⟩,
         fun _ => ⟨1, 1, 1, 1⟩, fun _ => [1], fun _ => ⟨0, 0, 0, 0⟩,
         fun _ => ⟨0, 0, 0, 0⟩, fun _ => [0], [0]⟩)).netCost
      = (fun _ => (2:ℚ)) :=
  (C4_rollback_frame 4 []
    ⟨fun _ => 2, fun _ => -1, fun _ => .notUpdatedYet, fun _ => ⟨1, 1, 1, 1⟩,
     fun _ => ⟨1, 1, 1, 1⟩, fun _ => [1], fun _ => ⟨0, 0, 0, 0⟩,
     fun _ => ⟨0, 0, 0, 0⟩, fun _ => [0], [0]⟩).1

/-- The flag written by `update_bb` is always UPDATED_ONCE or
GOT_FROM_SCRATCH. -/
theorem update_bb_snd_cases (g : Grid) (net : NetPins) (comm trial : BBData)
    (flag : BBFlag) (po pn : PinLoc) (sp : Bool) :
    (update_bb g net comm trial flag po pn sp).2 = .gotFromScratch
    ∨ (update_bb g net comm trial flag po pn sp).2 = .updatedOnce := by
  cases flag <;> simp only [update_bb] <;>
    [skip; skip; (left; rfl)] <;>
  · rcases hx : updXPhase _ (clampX g po.x) (clampX g pn.x) with _ | ⟨⟨a, b, c, d⟩⟩ <;>
      simp only [hx, scratchData]
    · simp
    · rcases hy : updYPhase _ (clampY g po.y) (clampY g pn.y) with _ | ⟨⟨e, f, i, j⟩⟩ <;>
        simp [hy, scratchData]

/-- The flag written by `update_layer_bb` is always UPDATED_ONCE or
GOT_FROM_SCRATCH. -/
theorem update_layer_bb_snd_cases (g : Grid) (net : NetPins)
    (comm trial : LayerBBData) (flag : BBFlag) (po pn : PinLoc) (op : Bool) :
    (update_layer_bb g net comm trial flag po pn op).2 = .gotFromScratch
    ∨ (update_layer_bb g net comm trial flag po pn op).2 = .updatedOnce := by
  cases flag <;> simp only [update_layer_bb] <;>
    [skip; skip; (left; rfl)] <;>
  · rcases hr : (if po.layer ≠ pn.layer then _ else _ :
        Option (List T2DBB × List T2DBB)) with _ | ⟨⟨e, c⟩⟩ <;>
      simp [hr, layerScratchData]

/-- After the commit loop, a visited net's flag is NOT_UPDATED_YET; other
nets keep their flags. -/
theorem foldl_commitStep_flag (smallNet numLayers : Nat) (netSinks : Nat → Nat)
    (l : List Nat) :
    ∀ (s : PlacerState) (n : Nat),
    (l.foldl (commitStep smallNet numLayers netSinks) s).bbUpdatedBefore n
      = if n ∈ l then .notUpdatedYet else s.bbUpdatedBefore n := by
  induction l with
  | nil => intro s n; simp
  | cons a t ih =>
    intro s n
    simp only [List.foldl_cons]
    rw [ih]
    by_cases hn : n ∈ t
    · simp [hn]
    · rw [if_neg hn]
      by_cases hna : n = a <;> simp [hna, hn, commitStep]

/-- On a net's first touch of a trial (flag NOT_UPDATED_YET), `update_bb`
bases everything on the committed values: with more than one device layer
the result is independent of whatever is in the trial scratch entry. -/
theorem update_bb_first_touch_uses_committed (g : Grid) (net : NetPins)
    (comm t1 t2 : BBData) (po pn : PinLoc) (sp : Bool) (h : 1 < g.numLayers) :
    update_bb g net comm t1 .notUpdatedYet po pn sp
      = update_bb g net comm t2 .notUpdatedYet po pn sp := by
  simp only [update_bb]
  rcases hx : updXPhase comm (clampX g po.x) (clampX g pn.x) with _ | ⟨⟨a, b, c, d⟩⟩ <;>
    simp [hx]
  rcases hy : updYPhase comm (clampY g po.y) (clampY g pn.y) with _ | ⟨⟨e, f, i, j⟩⟩ <;>
    simp [hy, h]

/-- On a net's first touch of a trial, `update_layer_bb` bases everything on
the committed values: the result is independent of the trial scratch entry. -/
theorem update_layer_bb_first_touch_uses_committed (g : Grid) (net : NetPins)
    (comm t1 t2 : LayerBBData) (po pn : PinLoc) (op : Bool) :
    update_layer_bb g net comm t1 .notUpdatedYet po pn op
      = update_layer_bb g net comm t2 .notUpdatedYet po pn op := by
  simp [update_layer_bb]

/-- **C3**: within one trial the freshness flag only moves forward through
NOT_UPDATED_YET → UPDATED_ONCE → GOT_FROM_SCRATCH: a first touch bases the
update on the last-committed values (ignoring stale trial data) and leaves
the flag at UPDATED_ONCE unless the update fell back to a full recompute
(GOT_FROM_SCRATCH); at GOT_FROM_SCRATCH every further `update_bb` or
`update_layer_bb` call returns without changing any trial state; and both
commit (`update_move_nets`) and rollback (`reset_move_nets`) put every
touched net's flag back to NOT_UPDATED_YET, so when every untouched net's
flag is NOT_UPDATED_YET, no other flag value survives into the next trial. -/
theorem C3_freshness_state_machine :
    (∀ (g : Grid) (net : NetPins) (comm trial : BBData) (po pn : PinLoc) (sp : Bool),
      update_bb g net comm trial .gotFromScratch po pn sp = (trial, .gotFromScratch))
    ∧ (∀ (g : Grid) (net : NetPins) (comm trial : LayerBBData) (po pn : PinLoc)
        (op : Bool),
      update_layer_bb g net comm trial .gotFromScratch po pn op
        = (trial, .gotFromScratch))
    ∧ (∀ (g : Grid) (net : NetPins) (comm trial : BBData) (flag : BBFlag)
        (po pn : PinLoc) (sp : Bool),
      flag.rank ≤ (update_bb g net comm trial flag po pn sp).2.rank
      ∧ (flag = .notUpdatedYet →
          (update_bb g net comm trial flag po pn sp).2 = .updatedOnce
          ∨ (update_bb g net comm trial flag po pn sp).2 = .gotFromScratch))
    ∧ (∀ (g : Grid) (net : NetPins) (comm trial : LayerBBData) (flag : BBFlag)
        (po pn : PinLoc) (op : Bool),
      flag.rank ≤ (update_layer_bb g net comm trial flag po pn op).2.rank
      ∧ (flag = .notUpdatedYet →
          (update_layer_bb g net comm trial flag po pn op).2 = .updatedOnce
          ∨ (update_layer_bb g net comm trial flag po pn op).2 = .gotFromScratch))
    ∧ (∀ (g : Grid) (net : NetPins) (comm t1 t2 : BBData) (po pn : PinLoc)
        (sp : Bool), 1 < g.numLayers →
      update_bb g net comm t1 .notUpdatedYet po pn sp
        = update_bb g net comm t2 .notUpdatedYet po pn sp)
    ∧ (∀ (g : Grid) (net : NetPins) (comm t1 t2 : LayerBBData) (po pn : PinLoc)
        (op : Bool),
      update_layer_bb g net comm t1 .notUpdatedYet po pn op
        = update_layer_bb g net comm t2 .notUpdatedYet po pn op)
    ∧ (∀ (s : PlacerState) (n : Nat), n ∈ s.tsNetsToUpdate →
      (reset_move_nets s).bbUpdatedBefore n = .notUpdatedYet)
    ∧ (∀ (smallNet numLayers : Nat) (netSinks : Nat → Nat) (s : PlacerState)
        (n : Nat), n ∈ s.tsNetsToUpdate →
      (update_move_nets smallNet numLayers netSinks s).bbUpdatedBefore n
        = .notUpdatedYet)
    ∧ (∀ s : PlacerState,
        (∀ m, m ∉ s.tsNetsToUpdate → s.bbUpdatedBefore m = .notUpdatedYet) →
        ∀ m, (reset_move_nets s).bbUpdatedBefore m = .notUpdatedYet)
    ∧ (∀ (smallNet numLayers : Nat) (netSinks : Nat → Nat) (s : PlacerState),
        (∀ m, m ∉ s.tsNetsToUpdate → s.bbUpdatedBefore m = .notUpdatedYet) →
        ∀ m, (update_move_nets smallNet numLayers netSinks s).bbUpdatedBefore m
          = .notUpdatedYet) := by
  refine ⟨?_, ?_, ?_, ?_, update_bb_first_touch_uses_committed,
    update_layer_bb_first_touch_uses_committed, ?_, ?_, ?_, ?_⟩
  · intro g net comm trial po pn sp
    simp [update_bb]
  · intro g net comm trial po pn op
    simp [update_layer_bb]
  · intro g net comm trial flag po pn sp
    constructor
    · cases flag with
      | gotFromScratch => simp [update_bb, BBFlag.rank]
      | notUpdatedYet =>
        rcases update_bb_snd_cases g net comm trial .notUpdatedYet po pn sp with h | h <;>
          rw [h] <;> simp [BBFlag.rank]
      | updatedOnce =>
        rcases update_bb_snd_cases g net comm trial .updatedOnce po pn sp with h | h <;>
          rw [h] <;> simp [BBFlag.rank]
    · intro hN
      subst hN
      exact (update_bb_snd_cases g net comm trial _ po pn sp).symm
  · intro g net comm trial flag po pn op
    constructor
    · cases flag with
      | gotFromScratch => simp [update_layer_bb, BBFlag.rank]
      | notUpdatedYet =>
        rcases update_layer_bb_snd_cases g net comm trial .notUpdatedYet po pn op with h | h <;>
          rw [h] <;> simp [BBFlag.rank]
      | updatedOnce =>
        rcases update_layer_bb_snd_cases g net comm trial .updatedOnce po pn op with h | h <;>
          rw [h] <;> simp [BBFlag.rank]
    · intro hN
      subst hN
      exact (update_layer_bb_snd_cases g net comm trial _ po pn op).symm
  · intro s n hn
    have := (foldl_resetStep_sentinel_flag s.tsNetsToUpdate s n).2
    rw [reset_move_nets, this, if_pos hn]
  · intro smallNet numLayers netSinks s n hn
    rw [update_move_nets, foldl_commitStep_flag, if_pos hn]
  · intro s hother n
    have := (foldl_resetStep_sentinel_flag s.tsNetsToUpdate s n).2
    rw [reset_move_nets, this]
    by_cases hn : n ∈ s.tsNetsToUpdate
    · simp [hn]
    · simp [hn, hother n hn]
  · intro smallNet numLayers netSinks s hother n
    rw [update_move_nets, foldl_commitStep_flag]
    by_cases hn : n ∈ s.tsNetsToUpdate
    · simp [hn]
    · simp [hn, hother n hn]

/-- Witness for C3: a GOT_FROM_SCRATCH net is untouched by a further
`update_bb` call on a concrete one-layer grid. -/
theorem C3_freshness_state_machine_witness :
    update_bb ⟨5, 5, 1⟩ ⟨⟨2, 2, 0⟩, []⟩
        ⟨⟨1, 1, 1, 1⟩, ⟨1, 1, 1, 1⟩, [1]⟩ ⟨⟨2, 2, 2, 2⟩, ⟨1, 1, 1, 1⟩, [0]⟩
        .gotFromScratch ⟨2, 2, 0⟩ ⟨3, 3, 0⟩ false
      = (⟨⟨2, 2, 2, 2⟩, ⟨1, 1, 1, 1⟩, [0]⟩, .gotFromScratch)
    ∧ (reset_move_nets
        ⟨fun _ => 2, fun _ => 1, fun _ => .updatedOnce, fun _ => ⟨1, 1, 1, 1⟩,
         fun _ => ⟨1, 1, 1, 1⟩, fun _ => [1], fun _ => ⟨0, 0, 0, 0⟩,
         fun _ => ⟨0, 0, 0, 0⟩, fun _ => [0], [0]⟩).bbUpdatedBefore 0
      = .notUpdatedYet :=
  ⟨C3_freshness_state_machine.1 ⟨5, 5, 1⟩ ⟨⟨2, 2, 0⟩, []⟩
      ⟨⟨1, 1, 1, 1⟩, ⟨1, 1, 1, 1⟩, [1]⟩ ⟨⟨2, 2, 2, 2⟩, ⟨1, 1, 1, 1⟩, [0]⟩
      ⟨2, 2, 0⟩ ⟨3, 3, 0⟩ false,
   C3_freshness_state_machine.2.2.2.2.2.2.1
      ⟨fun _ => 2, fun _ => 1, fun _ => .updatedOnce, fun _ => ⟨1, 1, 1, 1⟩,
       fun _ => ⟨1, 1, 1, 1⟩, fun _ => [1], fun _ => ⟨0, 0, 0, 0⟩,
       fun _ => ⟨0, 0, 0, 0⟩, fun _ => [0], [0]⟩ 0 (by simp)⟩

/-- A clamped x coordinate lies in `[1, width − 2]` whenever the device is at
least 3 cells wide. -/
theorem clampX_range (g : Grid) (hw : 3 ≤ g.width) (x : Int) :
    1 ≤ clampX g x ∧ clampX g x ≤ g.width - 2 := by
  unfold clampX; omega

/-- A clamped y coordinate lies in `[1, height − 2]` whenever the device is
at least 3 cells tall. -/
theorem clampY_range (g : Grid) (hh : 3 ≤ g.height) (y : Int) :
    1 ≤ clampY g y ∧ clampY g y ≤ g.height - 2 := by
  unfold clampY; omega

/-- The x half of a scan step moves `xmin`/`xmax` only to the scanned
coordinate and leaves the y coordinates alone. -/
theorem scratchStepX_fields (x : Int) (acc : ScratchAcc) :
    ((scratchStepX x acc).xmin = acc.xmin ∨ (scratchStepX x acc).xmin = x)
    ∧ ((scratchStepX x acc).xmax = acc.xmax ∨ (scratchStepX x acc).xmax = x)
    ∧ (scratchStepX x acc).ymin = acc.ymin
    ∧ (scratchStepX x acc).ymax = acc.ymax := by
  simp only [scratchStepX]
  split_ifs <;> simp_all

/-- The y half of a scan step moves `ymin`/`ymax` only to the scanned
coordinate and leaves the x coordinates alone. -/
theorem scratchStepY_fields (y : Int) (acc : ScratchAcc) :
    ((scratchStepY y acc).ymin = acc.ymin ∨ (scratchStepY y acc).ymin = y)
    ∧ ((scratchStepY y acc).ymax = acc.ymax ∨ (scratchStepY y acc).ymax = y)
    ∧ (scratchStepY y acc).xmin = acc.xmin
    ∧ (scratchStepY y acc).xmax = acc.xmax := by
  simp only [scratchStepY]
  split_ifs <;> simp_all

/-- One step of `get_bb_from_scratch`'s scan keeps all four coordinates in
the clamped range. -/
theorem scratchStep_range (g : Grid) (hw : 3 ≤ g.width) (hh : 3 ≤ g.height)
    (acc : ScratchAcc) (p : PinLoc)
    (hacc : coordInRange g ⟨acc.xmin, acc.xmax, acc.ymin, acc.ymax⟩) :
    coordInRange g ⟨(scratchStep g acc p).xmin, (scratchStep g acc p).xmax,
      (scratchStep g acc p).ymin, (scratchStep g acc p).ymax⟩ := by
  obtain ⟨hx1, hx2⟩ := clampX_range g hw p.x
  obtain ⟨hy1, hy2⟩ := clampY_range g hh p.y
  obtain ⟨hX1, hX2, hX3, hX4⟩ := scratchStepX_fields (clampX g p.x) acc
  obtain ⟨hY1, hY2, hY3, hY4⟩ :=
    scratchStepY_fields (clampY g p.y) (scratchStepX (clampX g p.x) acc)
  unfold coordInRange at hacc ⊢
  simp only at hacc ⊢
  unfold scratchStep
  rcases hX1 with h1 | h1 <;> rcases hX2 with h2 | h2 <;>
    rcases hY1 with h3 | h3 <;> rcases hY2 with h4 | h4 <;> omega

/-- The whole scan of `get_bb_from_scratch` keeps all four coordinates in
the clamped range. -/
theorem foldl_scratchStep_range (g : Grid) (hw : 3 ≤ g.width) (hh : 3 ≤ g.height) :
    ∀ (ps : List PinLoc) (acc : ScratchAcc),
    coordInRange g ⟨acc.xmin, acc.xmax, acc.ymin, acc.ymax⟩ →
    coordInRange g ⟨(ps.foldl (scratchStep g) acc).xmin,
      (ps.foldl (scratchStep g) acc).xmax, (ps.foldl (scratchStep g) acc).ymin,
      (ps.foldl (scratchStep g) acc).ymax⟩ := by
  intro ps
  induction ps with
  | nil => intro acc h; exact h
  | cons p t ih =>
    intro acc h
    exact ih (scratchStep g acc p) (scratchStep_range g hw hh acc p h)

/-- The box computed by `get_bb_from_scratch` lies in the clamped range. -/
theorem get_bb_from_scratch_range (g : Grid) (net : NetPins)
    (hw : 3 ≤ g.width) (hh : 3 ≤ g.height) :
    coordInRange g (get_bb_from_scratch g net).1 := by
  unfold get_bb_from_scratch
  refine foldl_scratchStep_range g hw hh net.sinks _ ?_
  obtain ⟨hx1, hx2⟩ := clampX_range g hw net.driver.x
  obtain ⟨hy1, hy2⟩ := clampY_range g hh net.driver.y
  exact ⟨hx1, hx2, hx1, hx2, hy1, hy2, hy1, hy2⟩

/-- The x coordinates returned by `updXPhase` come from the current box or
the clamped new pin position. -/
theorem updXPhase_some_mem (curr : BBData) (pox pnx a b c d : Int)
    (h : updXPhase curr pox pnx = some (a, b, c, d)) :
    (a = curr.coords.xmin ∨ a = pnx) ∧ (b = curr.coords.xmax ∨ b = pnx) := by
  unfold updXPhase at h
  split_ifs at h <;> simp_all

/-- The y coordinates returned by `updYPhase` come from the current box or
the clamped new pin position. -/
theorem updYPhase_some_mem (curr : BBData) (poy pny a b c d : Int)
    (h : updYPhase curr poy pny = some (a, b, c, d)) :
    (a = curr.coords.ymin ∨ a = pny) ∧ (b = curr.coords.ymax ∨ b = pny) := by
  unfold updYPhase at h
  split_ifs at h <;> simp_all

/-- An incremental `update_bb` keeps the trial box in the clamped range,
provided the committed and prior trial boxes were in range. -/
theorem update_bb_coords_range (g : Grid) (net : NetPins) (comm trial : BBData)
    (flag : BBFlag) (po pn : PinLoc) (sp : Bool)
    (hw : 3 ≤ g.width) (hh : 3 ≤ g.height)
    (hc : coordInRange g comm.coords) (ht : coordInRange g trial.coords) :
    coordInRange g (update_bb g net comm trial flag po pn sp).1.coords := by
  by_cases hflag : flag = BBFlag.gotFromScratch
  · subst hflag; simpa [update_bb] using ht
  · have hcurr : coordInRange g
        (if flag = BBFlag.notUpdatedYet then comm else trial).coords := by
      split_ifs <;> assumption
    obtain ⟨hpx1, hpx2⟩ := clampX_range g hw pn.x
    obtain ⟨hpy1, hpy2⟩ := clampY_range g hh pn.y
    simp only [update_bb, if_neg hflag]
    rcases hx : updXPhase (if flag = BBFlag.notUpdatedYet then comm else trial)
        (clampX g po.x) (clampX g pn.x) with _ | ⟨⟨a, b, c, d⟩⟩ <;>
      simp only [hx]
    · exact get_bb_from_scratch_range g net hw hh
    rcases hy : updYPhase (if flag = BBFlag.notUpdatedYet then comm else trial)
        (clampY g po.y) (clampY g pn.y) with _ | ⟨⟨e, f, i, j⟩⟩ <;>
      simp only [hy]
    · exact get_bb_from_scratch_range g net hw hh
    obtain ⟨ha, hb⟩ := updXPhase_some_mem _ _ _ _ _ _ _ hx
    obtain ⟨he, hf⟩ := updYPhase_some_mem _ _ _ _ _ _ _ hy
    unfold coordInRange at hcurr ⊢
    rcases ha with ha | ha <;> rcases hb with hb | hb <;>
      rcases he with he | he <;> rcases hf with hf | hf <;>
      subst ha hb he hf <;>
      exact ⟨by tauto, by tauto, by tauto, by tauto, by tauto, by tauto, by tauto,
        by tauto⟩

/-- **C5** (amended): on a device at least 3 cells wide and tall, every
bounding-box coordinate produced by the cube engine — brute-force
`get_non_updatable_bb`, from-scratch `get_bb_from_scratch`, or incremental
`update_bb` starting from in-range committed and trial boxes — lies in
`[1, width − 2]` on the x axis and `[1, height − 2]` on the y axis, for
every net and every pin input, including pin coordinates outside the grid. -/
theorem C5_bb_clamp_amended :
    ∀ (g : Grid) (net : NetPins), 3 ≤ g.width → 3 ≤ g.height →
    coordInRange g (get_non_updatable_bb g net).1
    ∧ coordInRange g (get_bb_from_scratch g net).1
    ∧ (∀ (comm trial : BBData) (flag : BBFlag) (po pn : PinLoc) (sp : Bool),
        coordInRange g comm.coords → coordInRange g trial.coords →
        coordInRange g (update_bb g net comm trial flag po pn sp).1.coords) := by
  intro g net hw hh
  refine ⟨?_, get_bb_from_scratch_range g net hw hh,
    fun comm trial flag po pn sp hc ht =>
      update_bb_coords_range g net comm trial flag po pn sp hw hh hc ht⟩
  unfold get_non_updatable_bb coordInRange
  obtain ⟨a1, a2⟩ := clampX_range g hw
    (net.sinks.foldl nonUpdatableStep
      ⟨net.driver.x, net.driver.x, net.driver.y, net.driver.y⟩).xmin
  obtain ⟨b1, b2⟩ := clampX_range g hw
    (net.sinks.foldl nonUpdatableStep
      ⟨net.driver.x, net.driver.x, net.driver.y, net.driver.y⟩).xmax
  obtain ⟨c1, c2⟩ := clampY_range g hh
    (net.sinks.foldl nonUpdatableStep
      ⟨net.driver.x, net.driver.x, net.driver.y, net.driver.y⟩).ymin
  obtain ⟨d1, d2⟩ := clampY_range g hh
    (net.sinks.foldl nonUpdatableStep
      ⟨net.driver.x, net.driver.x, net.driver.y, net.driver.y⟩).ymax
  exact ⟨a1, a2, b1, b2, c1, c2, d1, d2⟩

/-- Counterexample for C5 as stated: on a device of width 2 the clamp still
produces coordinate 1, but the claimed interval `[1, width − 2] = [1, 0]` is
empty, so the coordinate does not lie in it. -/
theorem C5_bb_clamp_counterexample :
    (get_non_updatable_bb ⟨2, 4, 1⟩ ⟨⟨0, 2, 0⟩, []⟩).1.xmin = 1
    ∧ ¬((get_non_updatable_bb ⟨2, 4, 1⟩ ⟨⟨0, 2, 0⟩, []⟩).1.xmin
          ≤ (⟨2, 4, 1⟩ : Grid).width - 2) := by
  decide

/-- Witness for C5 on a 5×5 single-layer grid with an out-of-range pin. -/
theorem C5_bb_clamp_amended_witness :
    coordInRange ⟨5, 5, 1⟩ (get_non_updatable_bb ⟨5, 5, 1⟩ ⟨⟨9, -3, 0⟩, []⟩).1 :=
  (C5_bb_clamp_amended ⟨5, 5, 1⟩ ⟨⟨9, -3, 0⟩, []⟩ (by norm_num) (by norm_num)).1

/-- Reading every index of a vector back in order reproduces the vector. -/
theorem map_getD_range_eq (v : List Int) :
    (List.range v.length).map (fun l => v.getD l 0) = v := by
  apply List.ext_getElem
  · simp
  · intro i h1 h2
    simp [List.getD, List.getElem?_eq_getElem h2]

/-- A decrement followed by an increment at the same index is the identity. -/
theorem bumpIdx_down_up_same : ∀ (v : List Int) (i : Nat),
    bumpIdx (bumpIdx v i (-1)) i 1 = v := by
  intro v
  induction v with
  | nil => intro i; rfl
  | cons a t ih =>
    intro i
    cases i with
    | zero =>
      simp only [bumpIdx, List.set_cons_zero, List.getD_cons_zero]
      norm_num
    | succ j =>
      simp only [bumpIdx, List.set_cons_succ, List.getD_cons_succ] at ih ⊢
      rw [ih j]

/-- Reading an entry of a bumped vector. -/
theorem bumpIdx_getD : ∀ (v : List Int) (i j : Nat) (d : Int), i < v.length →
    (bumpIdx v i d).getD j 0 = if j = i then v.getD j 0 + d else v.getD j 0 := by
  intro v
  induction v with
  | nil => intro i j d h; simp at h
  | cons a t ih =>
    intro i j d h
    cases i with
    | zero =>
      cases j with
      | zero => simp [bumpIdx]
      | succ k => simp [bumpIdx]
    | succ i' =>
      cases j with
      | zero => simp [bumpIdx]
      | succ k =>
        simp only [bumpIdx, List.set_cons_succ, List.getD_cons_succ] at ih ⊢
        rw [ih i' k d (by simpa using h)]
        simp

/-- Bumping an in-range entry shifts the vector total by the bump. -/
theorem bumpIdx_sum : ∀ (v : List Int) (i : Nat) (d : Int), i < v.length →
    (bumpIdx v i d).sum = v.sum + d := by
  intro v
  induction v with
  | nil => intro i d h; simp at h
  | cons a t ih =>
    intro i d h
    cases i with
    | zero => simp [bumpIdx]; ring
    | succ i' =>
      simp only [bumpIdx, List.set_cons_succ, List.getD_cons_succ, List.sum_cons] at ih ⊢
      rw [ih i' d (by simpa using h)]
      ring

/-- **C10**: an incremental bounding-box update changes the per-layer
sink-count vector only when the moved pin is a sink pin changing layer (one
decrement at the old layer, one increment at the new layer); moving a driver
pin, or a sink pin within its layer, leaves every count unchanged, and the
layer-change case preserves the vector's total, so the vector keeps totalling
the net's sink-pin count.  This covers `update_bb_pin_sink_count` (the
per-layer path) and the layer section of the incremental cube `update_bb`. -/
theorem C10_sink_count_update :
    (∀ (numLayers oldL newL : Nat) (curr : List Int),
      curr.length = numLayers →
      update_bb_pin_sink_count numLayers oldL newL curr true = curr)
    ∧ (∀ (numLayers L : Nat) (curr : List Int),
      curr.length = numLayers →
      update_bb_pin_sink_count numLayers L L curr false = curr)
    ∧ (∀ (numLayers oldL newL : Nat) (curr : List Int),
      curr.length = numLayers → oldL ≠ newL →
      oldL < numLayers → newL < numLayers →
      ((update_bb_pin_sink_count numLayers oldL newL curr false).getD oldL 0
          = curr.getD oldL 0 - 1
        ∧ (update_bb_pin_sink_count numLayers oldL newL curr false).getD newL 0
          = curr.getD newL 0 + 1
        ∧ (∀ l, l ≠ oldL → l ≠ newL →
            (update_bb_pin_sink_count numLayers oldL newL curr false).getD l 0
              = curr.getD l 0)
        ∧ (update_bb_pin_sink_count numLayers oldL newL curr false).sum = curr.sum))
    ∧ (∀ (g : Grid) (net : NetPins) (comm trial : BBData) (flag : BBFlag)
        (po pn : PinLoc) (sp : Bool), 1 < g.numLayers →
      flag ≠ .gotFromScratch →
      (update_bb g net comm trial flag po pn sp).2 ≠ .gotFromScratch →
      (update_bb g net comm trial flag po pn sp).1.sinks
        = if sp = false ∧ po.layer ≠ pn.layer
          then bumpIdx (bumpIdx
              (if flag = .notUpdatedYet then comm else trial).sinks po.layer (-1))
            pn.layer 1
          else (if flag = .notUpdatedYet then comm else trial).sinks) := by
  refine ⟨?_, ?_, ?_, ?_⟩
  · intro numLayers oldL newL curr hlen
    simp only [update_bb_pin_sink_count, Bool.not_true, Bool.false_eq_true, if_false]
    rw [← hlen, map_getD_range_eq]
  · intro numLayers L curr hlen
    simp only [update_bb_pin_sink_count, Bool.not_false, if_true]
    rw [← hlen, map_getD_range_eq, bumpIdx_down_up_same]
  · intro numLayers oldL newL curr hlen hne ho hn
    have hbase : (List.range numLayers).map (fun l => curr.getD l 0) = curr := by
      rw [← hlen, map_getD_range_eq]
    simp only [update_bb_pin_sink_count, Bool.not_false, if_true, hbase]
    have hlen1 : (bumpIdx curr oldL (-1)).length = curr.length := by
      simp [bumpIdx]
    have hnewlt : newL < (bumpIdx curr oldL (-1)).length := by
      simp only [hlen1, hlen]; omega
    refine ⟨?_, ?_, ?_, ?_⟩
    · rw [bumpIdx_getD (bumpIdx curr oldL (-1)) newL oldL 1 hnewlt,
        if_neg (by omega), bumpIdx_getD curr oldL oldL (-1) (by omega), if_pos rfl]
      ring
    · rw [bumpIdx_getD (bumpIdx curr oldL (-1)) newL newL 1 hnewlt, if_pos rfl,
        bumpIdx_getD curr oldL newL (-1) (by omega), if_neg (by omega)]
    · intro l hl1 hl2
      rw [bumpIdx_getD (bumpIdx curr oldL (-1)) newL l 1 hnewlt,
        if_neg (by omega), bumpIdx_getD curr oldL l (-1) (by omega),
        if_neg (by omega)]
    · rw [bumpIdx_sum (bumpIdx curr oldL (-1)) newL 1 hnewlt,
        bumpIdx_sum curr oldL (-1) (by omega)]
      ring
  · intro g net comm trial flag po pn sp hL hflag hres
    simp only [update_bb, if_neg hflag] at hres ⊢
    rcases hx : updXPhase (if flag = BBFlag.notUpdatedYet then comm else trial)
        (clampX g po.x) (clampX g pn.x) with _ | ⟨⟨a, b, c, d⟩⟩ <;>
      simp only [hx] at hres ⊢
    · simp [scratchData] at hres
    rcases hy : updYPhase (if flag = BBFlag.notUpdatedYet then comm else trial)
        (clampY g po.y) (clampY g pn.y) with _ | ⟨⟨e, f, i, j⟩⟩ <;>
      simp only [hy] at hres ⊢
    · simp [scratchData] at hres
    simp only [if_pos hL]
    by_cases hc : sp = false ∧ ¬po.layer = pn.layer
    · obtain ⟨hc1, hc2⟩ := hc
      subst hc1
      simp [hc2]
    · rw [if_neg hc]
      cases sp with
      | false =>
        have hpl : po.layer = pn.layer := by
          by_contra hne
          exact hc ⟨rfl, hne⟩
        simp [hpl]
      | true => simp

/-- Witness for C10: a sink pin hopping from layer 0 to layer 1 of a
two-layer count vector preserves the total. -/
theorem C10_sink_count_update_witness :
    (update_bb_pin_sink_count 2 0 1 [3, 4] false).sum = ([3, 4] : List Int).sum :=
  (C10_sink_count_update.2.2.1 2 0 1 [3, 4] (by decide) (by decide) (by decide)
    (by decide)).2.2.2
